import Mathlib

/-!
# SnapShare backend: a shallow embedding of the service layer

This file embeds the Go backend of the snap-share repository
(`services.EventService`, `services.SessionService`, `services.PhotoService`
and the HTTP session handler) as pure Lean functions over an explicit
database state, and proves the behavioural properties claimed by the
specification.

Modelling conventions:
* UUIDs are modelled as `String` values; every call to `uuid.New()` in the
  source becomes an explicit fresh-identifier argument.
* `time.Now()` becomes an explicit `now : Nat` argument (seconds).
* GORM soft deletion (`gorm.DeletedAt`) is a `deleted : Bool` flag; every
  query, update and count carries the implicit `deleted_at IS NULL` scope
  that GORM adds for models with a `DeletedAt` column.
* Fallible database/service calls return `Except String α`; the error
  strings follow the `fmt.Errorf` messages of the source.
* The object store (R2/S3) is a black box: a presigned URL is modelled as a
  `Presign` record carrying the HTTP method, object key, content type and
  expiry that the source passes to the presigner.
* `gorm.DB.Transaction` (used only by `ConfirmBulkUpload`) is modelled by
  applying the row updates to a tentative photo list and discarding that
  list when any update reports an error, so the committed state reflects
  either all updates of the call or none.
-/

deriving instance DecidableEq for Except

namespace SnapShare

/-- `models.EventStatus` (`active` / `inactive` / `closed`). -/
inductive EventStatus where
  | active
  | inactive
  | closed
deriving DecidableEq, Repr

/-- `models.Event`: an organizer-created event row. -/
structure Event where
  id : String
  name : String
  code : String
  description : Option String := none
  eventDate : Option Nat := none
  status : EventStatus
  ownerEmail : String
  createdAt : Nat := 0
  deleted : Bool := false
deriving DecidableEq, Repr

/-- `models.Session`: a guest session row. -/
structure Session where
  id : String
  eventID : String
  guestName : String
  sessionToken : String
  expiresAt : Nat
  createdAt : Nat := 0
  deleted : Bool := false
deriving DecidableEq, Repr

/-- `models.Photo`: a photo metadata row. -/
structure Photo where
  id : String
  eventID : String
  uploaderName : String
  objectKey : String
  size : Int
  mimeType : String
  createdAt : Nat := 0
  deleted : Bool := false
deriving DecidableEq, Repr

/-- The relational database state: the three tables of the schema. -/
structure DB where
  events : List Event
  sessions : List Session
  photos : List Photo
deriving DecidableEq, Repr

/-- A presigned-URL request handed to the object store, as observable
through the arguments the source passes to the R2 presign client. -/
inductive PresignMethod where
  | put
  | get
  | delete
deriving DecidableEq, Repr

/-- A presigned URL, identified by the method, object key, content type and
expiry (in seconds) that were signed. -/
structure Presign where
  method : PresignMethod
  key : String
  contentType : Option String := none
  expirySecs : Nat
deriving DecidableEq, Repr

/-! ## Event service (`services.EventService`) -/

/-- `db.First(&event, eventID)` for the `Event` model: the first non-deleted
row with the given primary key. -/
def findEvent? (db : DB) (eventID : String) : Option Event :=
  db.events.find? fun e => !e.deleted && e.id == eventID

/-- `EventService.GetEventByID`. -/
def GetEventByID (db : DB) (eventID : String) : Except String Event :=
  match findEvent? db eventID with
  | some e => .ok e
  | none => .error "event not found"

/-- `EventService.GetEventByCode`: looks up by code, excluding closed
events (`code = ? AND status != 'closed'`). -/
def GetEventByCode (db : DB) (code : String) : Except String Event :=
  match db.events.find? (fun e => !e.deleted && e.code == code && !(e.status == .closed)) with
  | some e => .ok e
  | none => .error "event not found or closed"

/-- The 36-symbol alphabet of `generateUniqueCode`. -/
def codeCharset : String := "ABCDEFGHIJKLMNOPQRSTUVWXYZ0123456789"

/-- One candidate code: each `rand.Int(rand.Reader, 36)` draw indexes the
charset. -/
def makeCode (draws : List (Fin 36)) : String :=
  String.mk (draws.map fun i => codeCharset.toList.getD i.val 'A')

/-- `Model(&Event{}).Where("code = ?", codeStr).Count(&count)`: whether a
non-deleted event row already uses the code. -/
def codeInUse (db : DB) (code : String) : Bool :=
  db.events.any fun e => !e.deleted && e.code == code

/-- `maxAttempts := 10` in `generateUniqueCode`. -/
def maxAttempts : Nat := 10

/-- The retry loop of `generateUniqueCode`; `rng i` is the sequence of
random draws of attempt `i`, and the fuel counts remaining attempts. -/
def generateUniqueCodeGo (db : DB) (rng : Nat → List (Fin 36)) : Nat → Except String String
  | 0 => .error "failed to generate unique code after 10 attempts"
  | k + 1 =>
    let code := makeCode (rng (maxAttempts - (k + 1)))
    if codeInUse db code then generateUniqueCodeGo db rng k
    else .ok code

/-- `EventService.generateUniqueCode`. -/
def generateUniqueCode (db : DB) (rng : Nat → List (Fin 36)) : Except String String :=
  generateUniqueCodeGo db rng maxAttempts

/-- `services.CreateEventRequest`. -/
structure CreateEventRequest where
  name : String
  description : Option String := none
  eventDate : Option Nat := none
  ownerEmail : String
deriving DecidableEq, Repr

/-- `EventService.CreateEvent`: generates a unique code and inserts a new
active event. -/
def CreateEvent (db : DB) (rng : Nat → List (Fin 36)) (newID : String) (now : Nat)
    (req : CreateEventRequest) : Except String (Event × DB) :=
  match generateUniqueCode db rng with
  | .error e => .error ("failed to generate unique code: " ++ e)
  | .ok code =>
    let event : Event :=
      { id := newID, name := req.name, code := code, description := req.description,
        eventDate := req.eventDate, status := .active, ownerEmail := req.ownerEmail,
        createdAt := now }
    .ok (event, { db with events := db.events ++ [event] })

/-- `services.UpdateEventRequest`. -/
structure UpdateEventRequest where
  name : Option String := none
  description : Option String := none
  eventDate : Option Nat := none
  status : Option EventStatus := none
deriving DecidableEq, Repr

/-- The field map built by `UpdateEvent`: only supplied fields change. -/
def applyEventUpdates (req : UpdateEventRequest) (e : Event) : Event :=
  { e with
    name := req.name.getD e.name,
    description := match req.description with | some d => some d | none => e.description,
    eventDate := match req.eventDate with | some d => some d | none => e.eventDate,
    status := req.status.getD e.status }

/-- `EventService.UpdateEvent`. -/
def UpdateEvent (db : DB) (eventID : String) (req : UpdateEventRequest) :
    Except String (Event × DB) :=
  match findEvent? db eventID with
  | none => .error "event not found"
  | some e =>
    .ok (applyEventUpdates req e,
      { db with events := db.events.map fun x =>
          if !x.deleted && x.id == eventID then applyEventUpdates req x else x })

/-- `EventService.DeleteEvent`: GORM soft delete by primary key. -/
def DeleteEvent (db : DB) (eventID : String) : DB :=
  { db with events := db.events.map fun x =>
      if !x.deleted && x.id == eventID then { x with deleted := true } else x }

/-- `EventService.CloseEvent`: `Update("status", closed)` scoped by id. -/
def CloseEvent (db : DB) (eventID : String) : DB :=
  { db with events := db.events.map fun x =>
      if !x.deleted && x.id == eventID then { x with status := .closed } else x }

/-! ## Session service (`services.SessionService`) -/

/-- The 24-hour session lifetime, in seconds. -/
def sessionTTL : Nat := 86400

/-- `SessionService.CreateSession`: requires the event to exist with status
`active`, then inserts a session expiring `sessionTTL` after `now`.  The
freshly generated 256-bit hex token is the explicit `token` argument. -/
def CreateSession (db : DB) (now : Nat) (newID token eventID guestName : String) :
    Except String (Session × DB) :=
  match db.events.find? (fun e => !e.deleted && e.id == eventID && e.status == .active) with
  | none => .error "event not found or inactive"
  | some _ =>
    let session : Session :=
      { id := newID, eventID := eventID, guestName := guestName,
        sessionToken := token, expiresAt := now + sessionTTL, createdAt := now }
    .ok (session, { db with sessions := db.sessions ++ [session] })

/-- The `Preload("Event")` + status check of `ValidateSession`: the
associated event row (if any, soft-delete scoped) has status `active`.
A missing or soft-deleted event loads as a zero-value `Event`, whose empty
status is not `active`. -/
def eventIsActive (db : DB) (eventID : String) : Bool :=
  match findEvent? db eventID with
  | some e => e.status == .active
  | none => false

/-- `SessionService.ValidateSession`: looks up by
`session_token = ? AND expires_at > ?` and then checks the event status. -/
def ValidateSession (db : DB) (now : Nat) (token : String) : Except String Session :=
  match db.sessions.find?
      (fun s => !s.deleted && s.sessionToken == token && decide (now < s.expiresAt)) with
  | none => .error "session not found or expired"
  | some s =>
    if eventIsActive db s.eventID then .ok s
    else .error "event is no longer active"

/-- `SessionService.RefreshSession`: re-validates, then sets the expiry to
`now + 24h` on the matched row. -/
def RefreshSession (db : DB) (now : Nat) (token : String) : Except String (Session × DB) :=
  match ValidateSession db now token with
  | .error e => .error e
  | .ok s =>
    let newExpiresAt := now + sessionTTL
    .ok ({ s with expiresAt := newExpiresAt },
      { db with sessions := db.sessions.map fun x =>
          if !x.deleted && x.id == s.id then { x with expiresAt := newExpiresAt } else x })

/-- `SessionService.RevokeSession`: deletes by token, failing when no row
matched (`RowsAffected == 0`). -/
def RevokeSession (db : DB) (token : String) : Except String DB :=
  if (db.sessions.filter fun s => !s.deleted && s.sessionToken == token).isEmpty then
    .error "session not found"
  else
    .ok { db with sessions := db.sessions.map fun s =>
        if !s.deleted && s.sessionToken == token then { s with deleted := true } else s }

/-- `SessionService.CleanupExpiredSessions`: deletes rows past expiry. -/
def CleanupExpiredSessions (db : DB) (now : Nat) : DB :=
  { db with sessions := db.sessions.map fun s =>
      if !s.deleted && decide (s.expiresAt ≤ now) then { s with deleted := true } else s }

/-! ## Photo service (`services.PhotoService`) -/

/-- `services.UploadInfo`. -/
structure UploadInfo where
  uploadURL : Presign
  objectKey : String
  photoID : String
deriving DecidableEq, Repr

/-- `services.FileSpec`. -/
structure FileSpec where
  contentType : String
  size : Int
deriving DecidableEq, Repr

/-- `services.BulkUploadResult`. -/
structure BulkUploadResult where
  uploads : List UploadInfo
  batchID : String
deriving DecidableEq, Repr

/-- `services.DownloadInfo`. -/
structure DownloadInfo where
  downloadURL : Presign
  expiresAt : Nat
  photoCount : Nat
deriving DecidableEq, Repr

/-- Go's `strings.HasPrefix`, on the character sequences of the strings. -/
def hasPrefix (pre s : String) : Bool :=
  pre.data.isPrefixOf s.data

/-- Go's `strings.HasSuffix`, on the character sequences of the strings. -/
def hasSuffix (suf s : String) : Bool :=
  suf.data.isSuffixOf s.data

/-- `getExtensionFromContentType`: `strings.HasPrefix` dispatch with a
`.jpg` default. -/
def getExtensionFromContentType (contentType : String) : String :=
  if hasPrefix "image/jpeg" contentType then ".jpg"
  else if hasPrefix "image/png" contentType then ".png"
  else if hasPrefix "image/gif" contentType then ".gif"
  else if hasPrefix "image/webp" contentType then ".webp"
  else if hasPrefix "image/heic" contentType then ".heic"
  else if hasPrefix "image/heif" contentType then ".heif"
  else ".jpg"

/-- The object key `events/{eventID}/photos/{photoID}{ext}`. -/
def photoObjectKey (eventID photoID ext : String) : String :=
  "events/" ++ eventID ++ "/photos/" ++ photoID ++ ext

/-- The archive key `events/{eventID}/archives/{archiveID}.zip`. -/
def archiveObjectKey (eventID archiveID : String) : String :=
  "events/" ++ eventID ++ "/archives/" ++ archiveID ++ ".zip"

/-- `PhotoService.GenerateUploadURL`: checks the event exists (no
active-status check), presigns a 15-minute PUT and inserts a size-0
placeholder row.  `photoID` is the fresh `uuid.New()`. -/
def GenerateUploadURL (db : DB) (eventID uploaderName contentType photoID : String) :
    Except String (UploadInfo × DB) :=
  match findEvent? db eventID with
  | none => .error "event not found"
  | some _ =>
    let ext := getExtensionFromContentType contentType
    let objectKey := photoObjectKey eventID photoID ext
    let uploadURL : Presign :=
      { method := .put, key := objectKey, contentType := some contentType, expirySecs := 900 }
    let photo : Photo :=
      { id := photoID, eventID := eventID, uploaderName := uploaderName,
        objectKey := objectKey, mimeType := contentType, size := 0 }
    .ok ({ uploadURL := uploadURL, objectKey := objectKey, photoID := photoID },
      { db with photos := db.photos ++ [photo] })

/-- `PhotoService.ConfirmUpload`: an unconditional
`Model(&Photo{}).Where("id = ?").Update("size", fileSize)` with no
not-found check; the update never reports an error by itself. -/
def ConfirmUpload (db : DB) (photoID : String) (fileSize : Int) : Except String DB :=
  .ok { db with photos := db.photos.map fun p =>
      if !p.deleted && p.id == photoID then { p with size := fileSize } else p }

/-- The rows returned by `Where("event_id = ?").Find(&photos)` (non-deleted
photos of the event). -/
def visiblePhotos (db : DB) (eventID : String) : List Photo :=
  db.photos.filter fun p => !p.deleted && p.eventID == eventID

/-- `R2Service.GetPublicURL`: public-domain and key concatenation
(`strings.TrimPrefix(key, "/")` and `strings.TrimSuffix(domain, "/")`). -/
def GetPublicURL (publicDomain key : String) : String :=
  (if hasPrefix "/" key then key.drop 1 else key) |> fun k =>
    (if hasSuffix "/" publicDomain then publicDomain.dropRight 1 else publicDomain) ++ "/" ++ k

/-- `PhotoService.GetPhotosByEvent`: the event's non-deleted photos with
object keys rewritten to public URLs. -/
def GetPhotosByEvent (db : DB) (publicDomain eventID : String) : List Photo :=
  (visiblePhotos db eventID).map fun p =>
    { p with objectKey := GetPublicURL publicDomain p.objectKey }

/-- `PhotoService.DeletePhoto`: loads the row, checks the caller-supplied
authorization flag, presigns a 5-minute DELETE (discarded by the caller)
and soft-deletes the row. -/
def DeletePhoto (db : DB) (photoID : String) (userCanDelete : Bool) :
    Except String (DB × Presign) :=
  match db.photos.find? (fun p => !p.deleted && p.id == photoID) with
  | none => .error "photo not found"
  | some photo =>
    if !userCanDelete then .error "unauthorized to delete photo"
    else
      let deleteURL : Presign := { method := .delete, key := photo.objectKey, expirySecs := 300 }
      .ok ({ db with photos := db.photos.map fun p =>
          if !p.deleted && p.id == photoID then { p with deleted := true } else p },
        deleteURL)

/-- The per-file loop of `GenerateBulkUploadURLs`: `ids i` is the
`uuid.New()` of the i-th file. -/
def buildUploads (eventID uploaderName : String) (ids : Nat → String) :
    Nat → List FileSpec → List UploadInfo × List Photo
  | _, [] => ([], [])
  | i, f :: rest =>
    let photoID := ids i
    let ext := getExtensionFromContentType f.contentType
    let objectKey := photoObjectKey eventID photoID ext
    let url : Presign :=
      { method := .put, key := objectKey, contentType := some f.contentType,
        expirySecs := 900 }
    let info : UploadInfo := { uploadURL := url, objectKey := objectKey, photoID := photoID }
    let photo : Photo :=
      { id := photoID, eventID := eventID, uploaderName := uploaderName,
        objectKey := objectKey, mimeType := f.contentType, size := f.size }
    let (infos, photos) := buildUploads eventID uploaderName ids (i + 1) rest
    (info :: infos, photo :: photos)

/-- `PhotoService.GenerateBulkUploadURLs`: checks the event exists, caps the
batch at 50 files, presigns one 15-minute PUT per file and batch-inserts
the photo rows, each carrying the caller-supplied `FileSpec.Size`. -/
def GenerateBulkUploadURLs (db : DB) (eventID uploaderName batchID : String)
    (ids : Nat → String) (files : List FileSpec) :
    Except String (BulkUploadResult × DB) :=
  match findEvent? db eventID with
  | none => .error "event not found"
  | some _ =>
    if files.length > 50 then .error "too many files: maximum 50 files per batch"
    else
      let (uploads, photoRecords) := buildUploads eventID uploaderName ids 0 files
      .ok ({ uploads := uploads, batchID := batchID },
        { db with photos := db.photos ++ photoRecords })

/-- Hex-digit test used by the canonical UUID shape check. -/
def isHexDigit (c : Char) : Bool :=
  c.isDigit || ('a' ≤ c && c ≤ 'f') || ('A' ≤ c && c ≤ 'F')

/-- Canonical 8-4-4-4-12 acceptance of the external `uuid.Parse`
(the UUID library is an out-of-scope black box; this models its success on
canonical inputs). -/
def isUUIDString (s : String) : Bool :=
  s.length == 36 &&
    (List.range 36).all fun i =>
      if i == 8 || i == 13 || i == 18 || i == 23 then s.toList.getD i ' ' == '-'
      else isHexDigit (s.toList.getD i ' ')

/-- The per-entry updates inside the `ConfirmBulkUpload` transaction.
`failsOn` abstracts a database error on the update of a given photo id;
a failing update aborts the transaction. -/
def applyConfirmations (photos : List Photo) (failsOn : String → Bool) :
    List (String × Int) → Except String (List Photo)
  | [] => .ok photos
  | (photoID, size) :: rest =>
    if failsOn photoID then .error ("failed to update photo " ++ photoID ++ " size")
    else
      applyConfirmations
        (photos.map fun p =>
          if !p.deleted && p.id == photoID then { p with size := size } else p)
        failsOn rest

/-- `PhotoService.ConfirmBulkUpload`: returns immediately on an empty map,
parses every photo id up front, then applies the size updates inside one
transaction — an error on any update discards the tentative updates. -/
def ConfirmBulkUpload (db : DB) (failsOn : String → Bool)
    (confirmations : List (String × Int)) : Except String DB :=
  if confirmations.isEmpty then .ok db
  else if confirmations.all (fun c => isUUIDString c.fst) then
    match applyConfirmations db.photos failsOn confirmations with
    | .error e => .error e
    | .ok photos2 => .ok { db with photos := photos2 }
  else .error "invalid photo ID"

/-- `PhotoService.GenerateBulkDownloadURL`: counts the event's photos, fails
on zero, and presigns a 1-hour GET for a fresh archive key that no code
path ever writes.  `archiveID` is the `uuid.New()` of the archive name. -/
def GenerateBulkDownloadURL (db : DB) (publicDomain : String) (now : Nat)
    (eventID archiveID : String) : Except String DownloadInfo :=
  let photos := GetPhotosByEvent db publicDomain eventID
  if photos.length == 0 then .error "no photos found for event"
  else
    let archiveKey := archiveObjectKey eventID archiveID
    .ok { downloadURL := { method := .get, key := archiveKey, expirySecs := 3600 },
          expiresAt := now + 3600, photoCount := photos.length }

/-- `PhotoService.DeleteBulkPhotos`: counts the non-deleted rows whose id is
in the request and whose event matches, rejects unless that count equals
the request length, then soft-deletes by id and presigns (and discards) a
5-minute DELETE per object key. -/
def DeleteBulkPhotos (db : DB) (photoIDs : List String) (eventID : String) :
    Except String (DB × List Presign) :=
  if photoIDs.isEmpty then .ok (db, [])
  else
    let matched := db.photos.filter fun p =>
      !p.deleted && photoIDs.contains p.id && p.eventID == eventID
    if !(matched.length == photoIDs.length) then
      .error "some photos not found or don't belong to this event"
    else
      let keys := ((db.photos.filter fun p => !p.deleted && photoIDs.contains p.id).map
        fun p => p.objectKey)
      let db2 := { db with photos := db.photos.map fun p =>
          if !p.deleted && photoIDs.contains p.id then { p with deleted := true } else p }
      .ok (db2, keys.map fun k => { method := .delete, key := k, expirySecs := 300 })

/-! ## Session HTTP handler (`handlers.SessionHandler.CreateSession`) -/

/-- `handlers.CreateSessionRequest` with its binding tags
(`event_code` required, length 8; `guest_name` required, 1..100). -/
structure CreateSessionRequest where
  eventCode : String
  guestName : String
deriving DecidableEq, Repr

/-- The struct-tag validation of `CreateSessionRequest`. -/
def validCreateSessionRequest (req : CreateSessionRequest) : Bool :=
  req.eventCode.length == 8 &&
    decide (1 ≤ req.guestName.length) && decide (req.guestName.length ≤ 100)

/-- `SessionHandler.CreateSession`, the `POST /api/sessions` handler: binds
and validates the request, then — instead of resolving the event code — uses
a fresh `uuid.New()` (`randomEventID` here) as the event id it hands to
`SessionService.CreateSession` (the source marks this with
`// TODO: Replace with actual event lookup by code`). -/
def CreateSessionHandler (db : DB) (now : Nat)
    (randomEventID newSessionID token : String) (req : CreateSessionRequest) :
    Except String (Session × DB) :=
  if !validCreateSessionRequest req then .error "validation failed"
  else
    let eventID := randomEventID
    CreateSession db now newSessionID token eventID req.guestName

/-! ## The operation algebra

Every state-touching service call, with its implicit inputs (current time,
fresh UUIDs, random draws, abstracted database failures) made explicit.
`applyOp` threads the database and accumulates every presigned-URL request
the call hands to the object store; an operation that returns an error
leaves the state unchanged (in the source, every error return precedes both
the presign calls and the row writes of the same operation, except for the
`ConfirmBulkUpload` transaction, whose rollback likewise restores the
pre-call rows). -/

inductive Op where
  | createEvent (rng : Nat → List (Fin 36)) (newID : String) (now : Nat)
      (req : CreateEventRequest)
  | updateEvent (eventID : String) (req : UpdateEventRequest)
  | deleteEvent (eventID : String)
  | closeEvent (eventID : String)
  | createSession (now : Nat) (newID token eventID guestName : String)
  | refreshSession (now : Nat) (token : String)
  | revokeSession (token : String)
  | cleanupSessions (now : Nat)
  | generateUploadURL (eventID uploaderName contentType photoID : String)
  | confirmUpload (photoID : String) (size : Int)
  | deletePhoto (photoID : String) (userCanDelete : Bool)
  | generateBulkUploadURLs (eventID uploaderName batchID : String)
      (ids : Nat → String) (files : List FileSpec)
  | confirmBulkUpload (failsOn : String → Bool) (confirmations : List (String × Int))
  | deleteBulkPhotos (photoIDs : List String) (eventID : String)
  | generateBulkDownloadURL (publicDomain : String) (now : Nat) (eventID archiveID : String)

/-- The server-visible state: the database plus the log of presigned-URL
requests issued to the object store so far. -/
structure ServerState where
  db : DB
  presignLog : List Presign

/-- One service call. -/
def applyOp (s : ServerState) (op : Op) : ServerState :=
  match op with
  | .createEvent rng newID now req =>
    match CreateEvent s.db rng newID now req with
    | .ok (_, db2) => { s with db := db2 }
    | .error _ => s
  | .updateEvent eventID req =>
    match UpdateEvent s.db eventID req with
    | .ok (_, db2) => { s with db := db2 }
    | .error _ => s
  | .deleteEvent eventID => { s with db := DeleteEvent s.db eventID }
  | .closeEvent eventID => { s with db := CloseEvent s.db eventID }
  | .createSession now newID token eventID guestName =>
    match CreateSession s.db now newID token eventID guestName with
    | .ok (_, db2) => { s with db := db2 }
    | .error _ => s
  | .refreshSession now token =>
    match RefreshSession s.db now token with
    | .ok (_, db2) => { s with db := db2 }
    | .error _ => s
  | .revokeSession token =>
    match RevokeSession s.db token with
    | .ok db2 => { s with db := db2 }
    | .error _ => s
  | .cleanupSessions now => { s with db := CleanupExpiredSessions s.db now }
  | .generateUploadURL eventID uploaderName contentType photoID =>
    match GenerateUploadURL s.db eventID uploaderName contentType photoID with
    | .ok (info, db2) => { db := db2, presignLog := s.presignLog ++ [info.uploadURL] }
    | .error _ => s
  | .confirmUpload photoID size =>
    match ConfirmUpload s.db photoID size with
    | .ok db2 => { s with db := db2 }
    | .error _ => s
  | .deletePhoto photoID userCanDelete =>
    match DeletePhoto s.db photoID userCanDelete with
    | .ok (db2, url) => { db := db2, presignLog := s.presignLog ++ [url] }
    | .error _ => s
  | .generateBulkUploadURLs eventID uploaderName batchID ids files =>
    match GenerateBulkUploadURLs s.db eventID uploaderName batchID ids files with
    | .ok (result, db2) =>
      { db := db2, presignLog := s.presignLog ++ result.uploads.map fun u => u.uploadURL }
    | .error _ => s
  | .confirmBulkUpload failsOn confirmations =>
    match ConfirmBulkUpload s.db failsOn confirmations with
    | .ok db2 => { s with db := db2 }
    | .error _ => s
  | .deleteBulkPhotos photoIDs eventID =>
    match DeleteBulkPhotos s.db photoIDs eventID with
    | .ok (db2, urls) => { db := db2, presignLog := s.presignLog ++ urls }
    | .error _ => s
  | .generateBulkDownloadURL publicDomain now eventID archiveID =>
    match GenerateBulkDownloadURL s.db publicDomain now eventID archiveID with
    | .ok info => { s with presignLog := s.presignLog ++ [info.downloadURL] }
    | .error _ => s

/-- A sequence of service calls. -/
def applyOps (s : ServerState) (ops : List Op) : ServerState :=
  ops.foldl applyOp s

/-! ## Database well-formedness predicates

These express the schema constraints the storage layer enforces: primary
keys are unique, and the `code` / `session_token` columns carry unique
indexes. -/

/-- Primary-key uniqueness of live event rows. -/
def eventIDUnique (db : DB) : Prop :=
  ∀ e1 ∈ db.events, ∀ e2 ∈ db.events,
    e1.deleted = false → e2.deleted = false → e1.id = e2.id → e1 = e2

/-- Unique-index uniqueness of live event codes. -/
def eventCodeUnique (db : DB) : Prop :=
  ∀ e1 ∈ db.events, ∀ e2 ∈ db.events,
    e1.deleted = false → e2.deleted = false → e1.code = e2.code → e1 = e2

/-- Unique-index uniqueness of live session tokens. -/
def sessionTokenUnique (db : DB) : Prop :=
  ∀ s1 ∈ db.sessions, ∀ s2 ∈ db.sessions,
    s1.deleted = false → s2.deleted = false → s1.sessionToken = s2.sessionToken → s1 = s2

instance (db : DB) : Decidable (eventIDUnique db) := by
  unfold eventIDUnique; infer_instance

instance (db : DB) : Decidable (eventCodeUnique db) := by
  unfold eventCodeUnique; infer_instance

instance (db : DB) : Decidable (sessionTokenUnique db) := by
  unfold sessionTokenUnique; infer_instance

/-! ## General helper lemmas -/

/-- `find?` locates an element that is the unique satisfier of the
predicate. -/
theorem find?_eq_some_of_unique {α : Type} {l : List α} {p : α → Bool} {a : α}
    (ha : a ∈ l) (hpa : p a = true) (huniq : ∀ b ∈ l, p b = true → b = a) :
    l.find? p = some a := by
  induction l with
  | nil => cases ha
  | cons x xs ih =>
    by_cases hx : p x = true
    · have hxa : x = a := huniq x (by simp) hx
      subst hxa
      simp [List.find?, hx]
    · have hxf : p x = false := by
        cases hpx : p x with
        | true => exact absurd hpx hx
        | false => rfl
      have hax : a ≠ x := fun h => hx (h ▸ hpa)
      have ha2 : a ∈ xs := by
        rcases List.mem_cons.mp ha with h | h
        · exact absurd h hax
        · exact h
      have := ih ha2 (fun b hb hpb => huniq b (List.mem_cons_of_mem x hb) hpb)
      simp [List.find?, hxf, this]

/-- Mapping a function that fixes every element of a list is the
identity. -/
theorem map_eq_self_of_fixed {α : Type} {l : List α} {f : α → α}
    (h : ∀ a ∈ l, f a = a) : l.map f = l := by
  induction l with
  | nil => rfl
  | cons x xs ih =>
    simp only [List.map_cons, h x (by simp), ih fun a ha => h a (List.mem_cons_of_mem x ha)]

/-! ## Claim theorems -/

/-- Claim C10: `ConfirmUpload(photoID, size)` reports success even when no
photo row with the given ID exists — the update is unconditional, with no
not-found check, so confirming a nonexistent or already-deleted photo
silently updates nothing and returns success. -/
theorem confirmUpload_succeeds_without_row (db : DB) (photoID : String) (size : Int)
    (hnone : ∀ p ∈ db.photos, p.deleted = false → p.id ≠ photoID) :
    (ConfirmUpload db photoID size).isOk = true ∧
      ConfirmUpload db photoID size = .ok db := by
  constructor
  · rfl
  · unfold ConfirmUpload
    have hfix : ∀ p ∈ db.photos,
        (if !p.deleted && p.id == photoID then { p with size := size } else p) = p := by
      intro p hp
      cases hdel : p.deleted with
      | true => simp [hdel]
      | false =>
        have : p.id ≠ photoID := hnone p hp hdel
        simp [hdel, this]
    simp only [map_eq_self_of_fixed hfix]

/-- A sample photo row used by concrete witnesses. -/
def photoW : Photo :=
  { id := "p1", eventID := "e1", uploaderName := "Alice", objectKey := "k",
    size := 0, mimeType := "image/png" }

/-- A sample database holding only `photoW`. -/
def dbPhotoW : DB := { events := [], sessions := [], photos := [photoW] }

/-- Witness for C10: confirming a photo id present on no row succeeds and
changes nothing. -/
theorem confirmUpload_succeeds_without_row_witness :
    (ConfirmUpload dbPhotoW "p2" 204800).isOk = true ∧
      ConfirmUpload dbPhotoW "p2" 204800 = .ok dbPhotoW :=
  confirmUpload_succeeds_without_row dbPhotoW "p2" 204800 (by decide)

/-- The active, non-deleted event (8-character code `AB12CD34`) used to
exhibit the C1 handler defect. -/
def eventC1 : Event :=
  { id := "11111111-1111-4111-8111-111111111111", name := "Test Wedding",
    code := "AB12CD34", status := .active, ownerEmail := "owner@example.com" }

/-- The C1 database: just `eventC1`. -/
def dbC1 : DB := { events := [eventC1], sessions := [], photos := [] }

/-- Claim C1 (code bug): `POST /api/sessions` with a valid code of an
existing active event does not create a session for that event.  The
handler validates the body but then passes a fresh `uuid.New()` as the
event id (`// TODO: Replace with actual event lookup by code`), so the
service rejects with "event not found or inactive" even though
`GetEventByCode` resolves the very same code to an active event. -/
theorem createSessionHandler_ignores_event_code :
    CreateSessionHandler dbC1 0 "99999999-9999-4999-8999-999999999999"
        "22222222-2222-4222-8222-222222222222" "tok" ⟨"AB12CD34", "Alice"⟩ =
      .error "event not found or inactive" ∧
      GetEventByCode dbC1 "AB12CD34" = .ok eventC1 ∧
      eventC1.status = .active :=
  ⟨rfl, rfl, rfl⟩

/-- Claim C5: for every non-deleted event whose status is `closed`,
`GetEventByCode` reports not-found for its code while `GetEventByID`
still returns the event (given the unique indexes on id and code). -/
theorem closed_event_hidden_by_code_visible_by_id (db : DB) (ev : Event)
    (hmem : ev ∈ db.events) (hdel : ev.deleted = false) (hclosed : ev.status = .closed)
    (hid : eventIDUnique db) (hcode : eventCodeUnique db) :
    GetEventByCode db ev.code = .error "event not found or closed" ∧
      GetEventByID db ev.id = .ok ev := by
  constructor
  · unfold GetEventByCode
    have hnone : db.events.find?
        (fun e => !e.deleted && e.code == ev.code && !(e.status == EventStatus.closed)) =
        none := by
      rw [List.find?_eq_none]
      intro e he hp
      simp only [Bool.and_eq_true, Bool.not_eq_true', beq_iff_eq] at hp
      obtain ⟨⟨hed, hec⟩, hes⟩ := hp
      have : e = ev := hcode e he ev hmem hed hdel hec
      subst this
      rw [hclosed] at hes
      simp at hes
    rw [hnone]
  · unfold GetEventByID findEvent?
    have hsome : db.events.find? (fun e => !e.deleted && e.id == ev.id) = some ev := by
      apply find?_eq_some_of_unique hmem
      · simp [hdel]
      · intro b hb hpb
        simp only [Bool.and_eq_true, Bool.not_eq_true', beq_iff_eq] at hpb
        exact hid b hb ev hmem hpb.1 hdel hpb.2
    rw [hsome]

/-- Claim C2: `ValidateSession(token)` succeeds iff a live session row with
that token exists, the current time is strictly before its `ExpiresAt`, and
the associated event's status is `active`; moreover a session created by
`CreateSession` (with a fresh token) validates at every instant strictly
before its `ExpiresAt` (= creation time + 24h) and fails at `ExpiresAt` and
at every later instant. -/
theorem validateSession_characterization (db : DB) (now t0 : Nat)
    (token newID eid gname : String)
    (huniq : sessionTokenUnique db) (hid : eventIDUnique db) :
    ((ValidateSession db now token).isOk = true ↔
      ∃ s ∈ db.sessions, s.deleted = false ∧ s.sessionToken = token ∧
        now < s.expiresAt ∧ eventIsActive db s.eventID = true) ∧
    (∀ s db', CreateSession db t0 newID token eid gname = .ok (s, db') →
      (∀ s0 ∈ db.sessions, s0.deleted = false → s0.sessionToken ≠ token) →
      s.expiresAt = t0 + sessionTTL ∧
      (∀ t, t < s.expiresAt → (ValidateSession db' t token).isOk = true) ∧
      (∀ t, s.expiresAt ≤ t → (ValidateSession db' t token).isOk = false)) := by
  have hpred : ∀ (d : DB) (t : Nat) (s : Session),
      ((!s.deleted && s.sessionToken == token && decide (t < s.expiresAt)) = true) ↔
      (s.deleted = false ∧ s.sessionToken = token ∧ t < s.expiresAt) := by
    intro d t s
    simp [Bool.and_eq_true, Bool.not_eq_true', decide_eq_true_iff, and_assoc]
  constructor
  · -- the validation iff
    constructor
    · intro hok
      unfold ValidateSession at hok
      cases hfind : db.sessions.find?
          (fun s => !s.deleted && s.sessionToken == token && decide (now < s.expiresAt)) with
      | none => rw [hfind] at hok; simp [Except.isOk, Except.toBool] at hok
      | some s =>
        rw [hfind] at hok
        have hmem := List.mem_of_find?_eq_some hfind
        have hps := List.find?_some hfind
        have hp := (hpred db now s).mp hps
        cases hact : eventIsActive db s.eventID with
        | false => simp [hact, Except.isOk, Except.toBool] at hok
        | true => exact ⟨s, hmem, hp.1, hp.2.1, hp.2.2, hact⟩
    · rintro ⟨s, hmem, hdel, htok, hexp, hact⟩
      have hfind : db.sessions.find?
          (fun s => !s.deleted && s.sessionToken == token && decide (now < s.expiresAt)) =
          some s := by
        apply find?_eq_some_of_unique hmem ((hpred db now s).mpr ⟨hdel, htok, hexp⟩)
        intro b hb hpb
        have hp := (hpred db now b).mp hpb
        exact huniq b hb s hmem hp.1 hdel (hp.2.1.trans htok.symm)
      unfold ValidateSession
      rw [hfind]
      simp [hact, Except.isOk, Except.toBool]
  · -- behaviour of a freshly created session
    intro s db' hcreate hfresh
    unfold CreateSession at hcreate
    cases hfind : db.events.find?
        (fun e => !e.deleted && e.id == eid && e.status == EventStatus.active) with
    | none => rw [hfind] at hcreate; cases hcreate
    | some e =>
      rw [hfind] at hcreate
      have hemem := List.mem_of_find?_eq_some hfind
      have hep := List.find?_some hfind
      simp only [Bool.and_eq_true, Bool.not_eq_true', beq_iff_eq] at hep
      obtain ⟨⟨hedel, heid⟩, hestat⟩ := hep
      simp only [Except.ok.injEq, Prod.mk.injEq] at hcreate
      obtain ⟨hs, hdb'⟩ := hcreate
      have hsessions : db'.sessions = db.sessions ++ [s] := by
        rw [← hdb', ← hs]
      have hevents : db'.events = db.events := by rw [← hdb']
      have hstok : s.sessionToken = token := by rw [← hs]
      have hsexp : s.expiresAt = t0 + sessionTTL := by rw [← hs]
      have hsdel : s.deleted = false := by rw [← hs]
      have hseid : s.eventID = eid := by rw [← hs]
      have hold : ∀ t : Nat, db.sessions.find?
          (fun x => !x.deleted && x.sessionToken == token && decide (t < x.expiresAt)) =
          none := by
        intro t
        rw [List.find?_eq_none]
        intro x hx hpx
        have hp := (hpred db t x).mp hpx
        exact hfresh x hx hp.1 hp.2.1
      have hactive : eventIsActive db' s.eventID = true := by
        unfold eventIsActive findEvent?
        rw [hevents, hseid]
        have : db.events.find? (fun x => !x.deleted && x.id == eid) = some e := by
          apply find?_eq_some_of_unique hemem
          · simp [hedel, heid]
          · intro b hb hpb
            simp only [Bool.and_eq_true, Bool.not_eq_true', beq_iff_eq] at hpb
            exact hid b hb e hemem hpb.1 hedel (hpb.2.trans heid.symm)
        rw [this]
        simp [hestat]
      refine ⟨hsexp, ?_, ?_⟩
      · intro t ht
        unfold ValidateSession
        rw [hsessions, List.find?_append, hold t]
        have hps : (!s.deleted && s.sessionToken == token && decide (t < s.expiresAt)) =
            true := (hpred db t s).mpr ⟨hsdel, hstok, ht⟩
        simp only [List.find?, hps, Option.or]
        rw [hactive]
        rfl
      · intro t ht
        unfold ValidateSession
        rw [hsessions, List.find?_append, hold t]
        have hps : (!s.deleted && s.sessionToken == token && decide (t < s.expiresAt)) =
            false := by
          have : ¬ t < s.expiresAt := Nat.not_lt.mpr ht
          simp [this]
        simp only [List.find?, hps, Option.or]
        rfl

/-- A sample active event for the C2 witness. -/
def eventC2 : Event :=
  { id := "e1", name := "W", code := "QQ11WW22", status := .active, ownerEmail := "o@x" }

/-- A sample token for the C2 witness. -/
def tokC2 : String := "0f5a3c"

/-- A sample live session on `eventC2`, expiring at 86400. -/
def sessC2 : Session :=
  { id := "s1", eventID := "e1", guestName := "Alice", sessionToken := tokC2,
    expiresAt := 86400 }

/-- The C2 witness database. -/
def dbC2 : DB := { events := [eventC2], sessions := [sessC2], photos := [] }

/-- Witness for C2: the characterization applied to a concrete database
with one active event and one live session. -/
theorem validateSession_characterization_witness :
    sessionTokenUnique dbC2 ∧ eventIDUnique dbC2 ∧
    (((ValidateSession dbC2 100 tokC2).isOk = true ↔
      ∃ s ∈ dbC2.sessions, s.deleted = false ∧ s.sessionToken = tokC2 ∧
        100 < s.expiresAt ∧ eventIsActive dbC2 s.eventID = true) ∧
    (∀ s db', CreateSession dbC2 0 "s2" tokC2 "e1" "Bob" = .ok (s, db') →
      (∀ s0 ∈ dbC2.sessions, s0.deleted = false → s0.sessionToken ≠ tokC2) →
      s.expiresAt = 0 + sessionTTL ∧
      (∀ t, t < s.expiresAt → (ValidateSession db' t tokC2).isOk = true) ∧
      (∀ t, s.expiresAt ≤ t → (ValidateSession db' t tokC2).isOk = false))) :=
  ⟨by decide, by decide,
    validateSession_characterization dbC2 100 0 tokC2 "s2" "e1" "Bob" (by decide) (by decide)⟩

/-! ### Code-generation lemmas (C6) -/

/-- Candidate codes are as long as their draw lists. -/
theorem makeCode_length (draws : List (Fin 36)) : (makeCode draws).length = draws.length := by
  show (draws.map fun i => codeCharset.toList.getD i.val 'A').length = draws.length
  rw [List.length_map]

set_option maxRecDepth 4096 in
/-- Every charset index yields a charset character. -/
theorem charset_getD_mem : ∀ i : Fin 36, codeCharset.toList.getD i.val 'A' ∈ codeCharset.data := by
  decide

/-- Every character of a candidate code is drawn from the charset. -/
theorem makeCode_chars (draws : List (Fin 36)) :
    ∀ c ∈ (makeCode draws).data, c ∈ codeCharset.data := by
  intro c hc
  simp only [makeCode] at hc
  rcases List.mem_map.mp hc with ⟨i, _, hi⟩
  exact hi ▸ charset_getD_mem i

/-- Characterization of a successful run of the retry loop with `k`
attempts left: the returned code is the first non-colliding draw. -/
theorem generateUniqueCodeGo_ok (db : DB) (rng : Nat → List (Fin 36)) :
    ∀ k, k ≤ maxAttempts → ∀ code, generateUniqueCodeGo db rng k = .ok code →
      codeInUse db code = false ∧
      ∃ i, maxAttempts - k ≤ i ∧ i < maxAttempts ∧ code = makeCode (rng i) ∧
        ∀ j, maxAttempts - k ≤ j → j < i → codeInUse db (makeCode (rng j)) = true := by
  intro k
  induction k with
  | zero => intro _ code h; cases h
  | succ k ih =>
    intro hk code h
    unfold generateUniqueCodeGo at h
    cases huse : codeInUse db (makeCode (rng (maxAttempts - (k + 1)))) with
    | false =>
      simp only [huse, Bool.false_eq_true, if_false, Except.ok.injEq] at h
      subst h
      refine ⟨huse, maxAttempts - (k + 1), Nat.le_refl _, ?_, rfl, ?_⟩
      · have : maxAttempts = 10 := rfl
        omega
      · intro j hj1 hj2
        omega
    | true =>
      simp only [huse, if_true] at h
      obtain ⟨hc, i, hi1, hi2, hi3, hi4⟩ := ih (Nat.le_of_succ_le hk) code h
      refine ⟨hc, i, by omega, hi2, hi3, ?_⟩
      intro j hj1 hj2
      by_cases hj : j = maxAttempts - (k + 1)
      · exact hj ▸ huse
      · exact hi4 j (by omega) hj2

/-- When every remaining attempt collides, the retry loop exhausts its
budget and fails. -/
theorem generateUniqueCodeGo_exhausted (db : DB) (rng : Nat → List (Fin 36)) :
    ∀ k, (∀ i, maxAttempts - k ≤ i → i < maxAttempts →
        codeInUse db (makeCode (rng i)) = true) →
      generateUniqueCodeGo db rng k =
        .error "failed to generate unique code after 10 attempts" := by
  intro k
  induction k with
  | zero => intro _; rfl
  | succ k ih =>
    intro h
    unfold generateUniqueCodeGo
    have h10 : maxAttempts = 10 := rfl
    have huse : codeInUse db (makeCode (rng (maxAttempts - (k + 1)))) = true :=
      h _ (Nat.le_refl _) (by omega)
    simp only [huse, if_true]
    exact ih fun i hi1 hi2 => h i (by omega) hi2

/-- Claim C6: event-code generation repeatedly draws a random 8-character
code over the 36-symbol uppercase-alphanumeric alphabet, accepts the first
code not already in use, errors out after its fixed 10-attempt budget when
every draw collides, and consequently every code returned by `CreateEvent`
is 8 characters over that alphabet. -/
theorem generateUniqueCode_spec (db : DB) (rng : Nat → List (Fin 36))
    (hlen : ∀ i, (rng i).length = 8) :
    (∀ code, generateUniqueCode db rng = .ok code →
      codeInUse db code = false ∧ code.length = 8 ∧
      (∀ c ∈ code.data, c ∈ codeCharset.data) ∧
      ∃ i, i < maxAttempts ∧ code = makeCode (rng i) ∧
        ∀ j, j < i → codeInUse db (makeCode (rng j)) = true) ∧
    ((∀ i, i < maxAttempts → codeInUse db (makeCode (rng i)) = true) →
      generateUniqueCode db rng =
        .error "failed to generate unique code after 10 attempts") ∧
    (∀ newID now req ev db', CreateEvent db rng newID now req = .ok (ev, db') →
      ev.code.length = 8 ∧ ∀ c ∈ ev.code.data, c ∈ codeCharset.data) := by
  have hmain : ∀ code, generateUniqueCode db rng = .ok code →
      codeInUse db code = false ∧ code.length = 8 ∧
      (∀ c ∈ code.data, c ∈ codeCharset.data) ∧
      ∃ i, i < maxAttempts ∧ code = makeCode (rng i) ∧
        ∀ j, j < i → codeInUse db (makeCode (rng j)) = true := by
    intro code h
    obtain ⟨hc, i, hi1, hi2, hi3, hi4⟩ :=
      generateUniqueCodeGo_ok db rng maxAttempts (Nat.le_refl _) code h
    refine ⟨hc, ?_, ?_, i, hi2, hi3, fun j hj => hi4 j (by omega) hj⟩
    · rw [hi3, makeCode_length, hlen]
    · exact hi3 ▸ makeCode_chars (rng i)
  refine ⟨hmain, ?_, ?_⟩
  · intro h
    exact generateUniqueCodeGo_exhausted db rng maxAttempts fun i hi1 hi2 => h i hi2
  · intro newID now req ev db' h
    unfold CreateEvent at h
    cases hg : generateUniqueCode db rng with
    | error e => rw [hg] at h; cases h
    | ok code =>
      rw [hg] at h
      simp only [Except.ok.injEq, Prod.mk.injEq] at h
      obtain ⟨hev, _⟩ := h
      have hcode : ev.code = code := by rw [← hev]
      obtain ⟨_, hlen8, hchars, _⟩ := hmain code hg
      exact ⟨hcode ▸ hlen8, hcode ▸ hchars⟩

/-- The witness random stream for C6: each attempt draws eight zero
indexes, producing the code `AAAAAAAA`. -/
def rngW : Nat → List (Fin 36) := fun _ => List.replicate 8 ⟨0, by omega⟩

/-- The empty database used by the C6 witness. -/
def dbEmpty : DB := { events := [], sessions := [], photos := [] }

/-- Witness for C6: on an empty database the first draw is free, and the
generated code is 8 charset characters. -/
theorem generateUniqueCode_spec_witness :
    (∀ i, (rngW i).length = 8) ∧
    (∀ code, generateUniqueCode dbEmpty rngW = .ok code →
      codeInUse dbEmpty code = false ∧ code.length = 8 ∧
      (∀ c ∈ code.data, c ∈ codeCharset.data) ∧
      ∃ i, i < maxAttempts ∧ code = makeCode (rngW i) ∧
        ∀ j, j < i → codeInUse dbEmpty (makeCode (rngW j)) = true) :=
  ⟨fun _ => rfl, (generateUniqueCode_spec dbEmpty rngW fun _ => rfl).1⟩

/-! ### Upload-URL key derivation (C7) -/

/-- The fixed content-type→extension table named by the specification. -/
def extensionTableSpec : List (String × String) :=
  [("image/jpeg", ".jpg"), ("image/png", ".png"), ("image/gif", ".gif"),
   ("image/webp", ".webp"), ("image/heic", ".heic"), ("image/heif", ".heif")]

/-- Modelled from the spec: the claim's reading of extension derivation as
an exact lookup in the fixed table, "defaulting to .jpg for unrecognized
content types". -/
def specExtensionFromContentType (contentType : String) : String :=
  match extensionTableSpec.lookup contentType with
  | some ext => ext
  | none => ".jpg"

/-- Counterexample to C7 as stated: `image/heic-sequence` is not a key of
the fixed table, so the claimed table-with-default derivation yields
`.jpg`, but the code matches content types by prefix and yields `.heic`. -/
theorem extension_table_counterexample :
    getExtensionFromContentType "image/heic-sequence" = ".heic" ∧
      specExtensionFromContentType "image/heic-sequence" = ".jpg" ∧
      (".heic" : String) ≠ ".jpg" :=
  ⟨by decide, by decide, by decide⟩

/-- Claim C7 (amended): the extension is derived by matching the content
type against the fixed table by prefix (first listed type that the content
type starts with), defaulting to `.jpg` when none matches;
`GenerateUploadURL` builds the object key
`events/{eventID}/photos/{photoID}{ext}` and returns the presigned
15-minute PUT URL for that key together with the key and photo id; in
particular `image/png` yields a key ending in `.png`. -/
theorem generateUploadURL_key_spec :
    (∀ ct, getExtensionFromContentType ct =
      match extensionTableSpec.find? (fun kv => hasPrefix kv.fst ct) with
      | some kv => kv.snd
      | none => ".jpg") ∧
    getExtensionFromContentType "image/png" = ".png" ∧
    (∀ db eid up ct pid info db', GenerateUploadURL db eid up ct pid = .ok (info, db') →
      info.objectKey = photoObjectKey eid pid (getExtensionFromContentType ct) ∧
      info.uploadURL.method = .put ∧ info.uploadURL.key = info.objectKey ∧
      info.uploadURL.contentType = some ct ∧ info.uploadURL.expirySecs = 900 ∧
      info.photoID = pid ∧
      (ct = "image/png" →
        info.objectKey = ("events/" ++ eid ++ "/photos/" ++ pid) ++ ".png")) := by
  refine ⟨?_, by decide, ?_⟩
  · intro ct
    simp only [extensionTableSpec, List.find?_cons]
    cases h1 : hasPrefix "image/jpeg" ct with
    | true => simp [getExtensionFromContentType, h1]
    | false =>
      cases h2 : hasPrefix "image/png" ct with
      | true => simp [getExtensionFromContentType, h1, h2]
      | false =>
        cases h3 : hasPrefix "image/gif" ct with
        | true => simp [getExtensionFromContentType, h1, h2, h3]
        | false =>
          cases h4 : hasPrefix "image/webp" ct with
          | true => simp [getExtensionFromContentType, h1, h2, h3, h4]
          | false =>
            cases h5 : hasPrefix "image/heic" ct with
            | true => simp [getExtensionFromContentType, h1, h2, h3, h4, h5]
            | false =>
              cases h6 : hasPrefix "image/heif" ct with
              | true => simp [getExtensionFromContentType, h1, h2, h3, h4, h5, h6]
              | false => simp [getExtensionFromContentType, h1, h2, h3, h4, h5, h6]
  · intro db eid up ct pid info db' h
    unfold GenerateUploadURL at h
    cases hf : findEvent? db eid with
    | none => rw [hf] at h; cases h
    | some e =>
      rw [hf] at h
      simp only [Except.ok.injEq, Prod.mk.injEq] at h
      obtain ⟨hinfo, _⟩ := h
      subst hinfo
      refine ⟨rfl, rfl, rfl, rfl, rfl, rfl, ?_⟩
      intro hct
      subst hct
      have hext : getExtensionFromContentType "image/png" = ".png" := by decide
      show photoObjectKey eid pid (getExtensionFromContentType "image/png") = _
      rw [hext]
      rfl

/-- The presigned PUT request produced by the C7 witness call. -/
def presignUW : Presign :=
  { method := .put, key := "events/e1/photos/p1.png", contentType := some "image/png",
    expirySecs := 900 }

/-- The upload info produced by the C7 witness call. -/
def uploadInfoW : UploadInfo :=
  { uploadURL := presignUW, objectKey := "events/e1/photos/p1.png", photoID := "p1" }

/-- The photo row inserted by the C7 witness call. -/
def photoUW : Photo :=
  { id := "p1", eventID := "e1", uploaderName := "Alice",
    objectKey := "events/e1/photos/p1.png", size := 0, mimeType := "image/png" }

/-- The database produced by the C7 witness call. -/
def dbUploadW : DB := { events := [eventC2], sessions := [sessC2], photos := [photoUW] }

/-- Witness for C7: a concrete `image/png` upload-URL call on `dbC2`
produces the key `events/e1/photos/p1.png`. -/
theorem generateUploadURL_key_spec_witness :
    uploadInfoW.objectKey =
      photoObjectKey "e1" "p1" (getExtensionFromContentType "image/png") ∧
    uploadInfoW.uploadURL.method = .put ∧
    uploadInfoW.uploadURL.key = uploadInfoW.objectKey ∧
    uploadInfoW.uploadURL.contentType = some "image/png" ∧
    uploadInfoW.uploadURL.expirySecs = 900 ∧
    uploadInfoW.photoID = "p1" ∧
    ("image/png" = "image/png" →
      uploadInfoW.objectKey = ("events/" ++ "e1" ++ "/photos/" ++ "p1") ++ ".png") :=
  generateUploadURL_key_spec.2.2 dbC2 "e1" "Alice" "image/png" "p1" uploadInfoW dbUploadW
    (by decide)

/-! ### Photo-size lifecycle (C3) -/

/-- The sizes recorded for the photo id `pid` (deleted rows included). -/
def photoSizes (db : DB) (pid : String) : List Int :=
  (db.photos.filter fun p => p.id == pid).map fun p => p.size

/-- Whether an operation can write the size of a photo with id `pid`,
either by confirming it or by inserting a row with that id. -/
def opTouchesSize : Op → String → Bool
  | .confirmUpload photoID _, pid => photoID == pid
  | .confirmBulkUpload _ confirmations, pid => confirmations.any fun c => c.fst == pid
  | .generateUploadURL _ _ _ photoID, pid => photoID == pid
  | .generateBulkUploadURLs _ _ _ ids files, pid =>
    (List.range files.length).any fun i => ids i == pid
  | _, _ => false

/-- A rewrite of the photo table that preserves ids, and sizes of rows with
id `pid`, preserves `photoSizes` at `pid`. -/
theorem photoSizes_map (l : List Photo) (f : Photo → Photo) (pid : String)
    (hid : ∀ p, (f p).id = p.id) (hsz : ∀ p, p.id = pid → (f p).size = p.size) :
    ((l.map f).filter fun p => p.id == pid).map (fun p => p.size) =
      (l.filter fun p => p.id == pid).map fun p => p.size := by
  induction l with
  | nil => rfl
  | cons x xs ih =>
    simp only [List.map_cons, List.filter_cons]
    cases hx : x.id == pid with
    | true =>
      have hfx : ((f x).id == pid) = true := by rw [hid x]; exact hx
      simp only [hfx, if_true, List.map_cons, ih]
      rw [hsz x (by simpa using hx)]
    | false =>
      have hfx : ((f x).id == pid) = false := by rw [hid x]; exact hx
      simp only [hfx, hx, Bool.false_eq_true, if_false, ih]

/-- Appending rows whose ids differ from `pid` preserves `photoSizes`. -/
theorem photoSizes_append (l1 l2 : List Photo) (pid : String)
    (h : ∀ p ∈ l2, (p.id == pid) = false) :
    ((l1 ++ l2).filter fun p => p.id == pid).map (fun p => p.size) =
      (l1.filter fun p => p.id == pid).map fun p => p.size := by
  rw [List.filter_append]
  have : l2.filter (fun p => p.id == pid) = [] := by
    rw [List.filter_eq_nil_iff]
    intro p hp
    simp [h p hp]
  rw [this, List.append_nil]

/-- `CreateEvent` leaves the photo table unchanged. -/
theorem CreateEvent_photos (db : DB) (rng : Nat → List (Fin 36)) (newID : String)
    (now : Nat) (req : CreateEventRequest) (ev : Event) (db2 : DB)
    (h : CreateEvent db rng newID now req = .ok (ev, db2)) : db2.photos = db.photos := by
  unfold CreateEvent at h
  cases hg : generateUniqueCode db rng with
  | error e => rw [hg] at h; cases h
  | ok code =>
    rw [hg] at h
    simp only [Except.ok.injEq, Prod.mk.injEq] at h
    rw [← h.2]

/-- `UpdateEvent` leaves the photo table unchanged. -/
theorem UpdateEvent_photos (db : DB) (eventID : String) (req : UpdateEventRequest)
    (ev : Event) (db2 : DB) (h : UpdateEvent db eventID req = .ok (ev, db2)) :
    db2.photos = db.photos := by
  unfold UpdateEvent at h
  cases hf : findEvent? db eventID with
  | none => rw [hf] at h; cases h
  | some e =>
    rw [hf] at h
    simp only [Except.ok.injEq, Prod.mk.injEq] at h
    rw [← h.2]

/-- `CreateSession` leaves the photo table unchanged. -/
theorem CreateSession_photos (db : DB) (now : Nat) (newID token eventID guestName : String)
    (s : Session) (db2 : DB) (h : CreateSession db now newID token eventID guestName =
      .ok (s, db2)) : db2.photos = db.photos := by
  unfold CreateSession at h
  cases hf : db.events.find?
      (fun e => !e.deleted && e.id == eventID && e.status == EventStatus.active) with
  | none => rw [hf] at h; cases h
  | some e =>
    rw [hf] at h
    simp only [Except.ok.injEq, Prod.mk.injEq] at h
    rw [← h.2]

/-- `ValidateSession` never returns a modified database, and
`RefreshSession` only rewrites session rows. -/
theorem RefreshSession_photos (db : DB) (now : Nat) (token : String)
    (s : Session) (db2 : DB) (h : RefreshSession db now token = .ok (s, db2)) :
    db2.photos = db.photos := by
  unfold RefreshSession at h
  cases hv : ValidateSession db now token with
  | error e => rw [hv] at h; cases h
  | ok s0 =>
    rw [hv] at h
    simp only [Except.ok.injEq, Prod.mk.injEq] at h
    rw [← h.2]

/-- `RevokeSession` leaves the photo table unchanged. -/
theorem RevokeSession_photos (db : DB) (token : String) (db2 : DB)
    (h : RevokeSession db token = .ok db2) : db2.photos = db.photos := by
  unfold RevokeSession at h
  cases hc : (db.sessions.filter fun s => !s.deleted && s.sessionToken == token).isEmpty with
  | true => simp [hc] at h
  | false =>
    simp only [hc, Bool.false_eq_true, if_false, Except.ok.injEq] at h
    rw [← h]

/-- Ids produced by the bulk-upload loop come from the id stream at offsets
below the file count. -/
theorem buildUploads_ids (eventID uploaderName : String) (ids : Nat → String) :
    ∀ (files : List FileSpec) (i : Nat) (p : Photo),
      p ∈ (buildUploads eventID uploaderName ids i files).2 →
      ∃ j, j < files.length ∧ p.id = ids (i + j) := by
  intro files
  induction files with
  | nil => intro i p hp; cases hp
  | cons f rest ih =>
    intro i p hp
    unfold buildUploads at hp
    simp only [List.mem_cons] at hp
    rcases hp with hp | hp
    · exact ⟨0, by simp, by subst hp; simp⟩
    · obtain ⟨j, hj, hpj⟩ := ih (i + 1) p hp
      refine ⟨j + 1, by simpa using Nat.succ_lt_succ hj, ?_⟩
      rw [hpj]
      congr 1
      omega

/-- The sizes of the rows inserted by the bulk-upload loop are exactly the
caller-supplied file sizes. -/
theorem buildUploads_sizes (eventID uploaderName : String) (ids : Nat → String) :
    ∀ (files : List FileSpec) (i : Nat),
      ((buildUploads eventID uploaderName ids i files).2).map (fun p => p.size) =
        files.map fun f => f.size := by
  intro files
  induction files with
  | nil => intro i; rfl
  | cons f rest ih =>
    intro i
    unfold buildUploads
    simp only [List.map_cons, ih (i + 1)]

/-- Confirmations that never mention `pid` preserve `photoSizes` at `pid`
whenever the transaction body succeeds. -/
theorem applyConfirmations_photoSizes (failsOn : String → Bool) (pid : String) :
    ∀ (confirmations : List (String × Int)) (photos photos2 : List Photo),
      (confirmations.any fun c => c.fst == pid) = false →
      applyConfirmations photos failsOn confirmations = .ok photos2 →
      (photos2.filter fun p => p.id == pid).map (fun p => p.size) =
        (photos.filter fun p => p.id == pid).map fun p => p.size := by
  intro confirmations
  induction confirmations with
  | nil =>
    intro photos photos2 _ h
    simp only [applyConfirmations, Except.ok.injEq] at h
    rw [h]
  | cons c rest ih =>
    intro photos photos2 hany h
    obtain ⟨photoID, size⟩ := c
    simp only [List.any_cons, Bool.or_eq_false_iff] at hany
    unfold applyConfirmations at h
    cases hfail : failsOn photoID with
    | true => rw [hfail] at h; cases h
    | false =>
      rw [hfail] at h
      simp only [Bool.false_eq_true, if_false] at h
      have step := ih _ photos2 hany.2 h
      rw [step]
      apply photoSizes_map
      · intro p
        by_cases hc : (!p.deleted && p.id == photoID) = true
        · simp [hc]
        · simp [hc]
      · intro p hpid
        have hne := Bool.eq_false_iff.mp hany.1
        have hfalse : (p.id == photoID) = false := by
          apply Bool.eq_false_iff.mpr
          intro hcontra
          apply hne
          have h4 : p.id = photoID := by simpa using hcontra
          simp [← h4, hpid]
        simp [hfalse]

/-- No operation other than a size-confirming or row-inserting one for
`pid` changes the sizes recorded for `pid`. -/
theorem applyOp_preserves_photoSizes (s : ServerState) (op : Op) (pid : String)
    (h : opTouchesSize op pid = false) :
    photoSizes (applyOp s op).db pid = photoSizes s.db pid := by
  unfold photoSizes
  cases op with
  | createEvent rng newID now req =>
    simp only [applyOp]
    cases h2 : CreateEvent s.db rng newID now req with
    | error e => rfl
    | ok res => rw [CreateEvent_photos s.db rng newID now req res.1 res.2 (by rw [← h2])]
  | updateEvent eventID req =>
    simp only [applyOp]
    cases h2 : UpdateEvent s.db eventID req with
    | error e => rfl
    | ok res => rw [UpdateEvent_photos s.db eventID req res.1 res.2 (by rw [← h2])]
  | deleteEvent eventID => rfl
  | closeEvent eventID => rfl
  | createSession now newID token eventID guestName =>
    simp only [applyOp]
    cases h2 : CreateSession s.db now newID token eventID guestName with
    | error e => rfl
    | ok res =>
      rw [CreateSession_photos s.db now newID token eventID guestName res.1 res.2
        (by rw [← h2])]
  | refreshSession now token =>
    simp only [applyOp]
    cases h2 : RefreshSession s.db now token with
    | error e => rfl
    | ok res => rw [RefreshSession_photos s.db now token res.1 res.2 (by rw [← h2])]
  | revokeSession token =>
    simp only [applyOp]
    cases h2 : RevokeSession s.db token with
    | error e => rfl
    | ok db2 => rw [RevokeSession_photos s.db token db2 h2]
  | cleanupSessions now => rfl
  | generateUploadURL eventID uploaderName contentType photoID =>
    simp only [applyOp]
    cases h2 : GenerateUploadURL s.db eventID uploaderName contentType photoID with
    | error e => rfl
    | ok res =>
      unfold GenerateUploadURL at h2
      cases hf : findEvent? s.db eventID with
      | none => rw [hf] at h2; cases h2
      | some e =>
        rw [hf] at h2
        simp only [Except.ok.injEq] at h2
        have hphotos : res.2.photos = s.db.photos ++
            [{ id := photoID, eventID := eventID, uploaderName := uploaderName,
               objectKey := photoObjectKey eventID photoID
                 (getExtensionFromContentType contentType),
               size := 0, mimeType := contentType, createdAt := 0, deleted := false }] := by
          rw [← h2]
        rw [hphotos]
        apply photoSizes_append
        intro p hp
        simp only [List.mem_singleton] at hp
        subst hp
        simpa [opTouchesSize] using h
  | confirmUpload photoID size =>
    simp only [applyOp, ConfirmUpload]
    apply photoSizes_map
    · intro p
      by_cases hc : (!p.deleted && p.id == photoID) = true
      · simp [hc]
      · simp [hc]
    · intro p hpid
      have hne : (photoID == pid) = false := by simpa [opTouchesSize] using h
      have hfalse : (p.id == photoID) = false := by
        apply Bool.eq_false_iff.mpr
        intro hcontra
        apply Bool.eq_false_iff.mp hne
        have h4 : p.id = photoID := by simpa using hcontra
        simp [← h4, hpid]
      simp [hfalse]
  | deletePhoto photoID userCanDelete =>
    simp only [applyOp]
    cases h2 : DeletePhoto s.db photoID userCanDelete with
    | error e => rfl
    | ok res =>
      unfold DeletePhoto at h2
      cases hf : s.db.photos.find? (fun p => !p.deleted && p.id == photoID) with
      | none => rw [hf] at h2; cases h2
      | some photo =>
        rw [hf] at h2
        cases hauth : userCanDelete with
        | false => simp [hauth] at h2
        | true =>
          simp only [hauth, Bool.not_true, Bool.false_eq_true, if_false,
            Except.ok.injEq] at h2
          have hphotos : res.1.photos = s.db.photos.map fun p =>
              if !p.deleted && p.id == photoID then { p with deleted := true } else p := by
            rw [← h2]
          rw [hphotos]
          apply photoSizes_map
          · intro p
            by_cases hc : (!p.deleted && p.id == photoID) = true
            · simp [hc]
            · simp [hc]
          · intro p _
            by_cases hc : (!p.deleted && p.id == photoID) = true
            · simp [hc]
            · simp [hc]
  | generateBulkUploadURLs eventID uploaderName batchID ids files =>
    simp only [applyOp]
    cases h2 : GenerateBulkUploadURLs s.db eventID uploaderName batchID ids files with
    | error e => rfl
    | ok res =>
      unfold GenerateBulkUploadURLs at h2
      cases hf : findEvent? s.db eventID with
      | none => rw [hf] at h2; cases h2
      | some e =>
        rw [hf] at h2
        cases hlen : decide (files.length > 50) with
        | true => rw [if_pos (of_decide_eq_true hlen)] at h2; cases h2
        | false =>
          rw [if_neg (of_decide_eq_false hlen)] at h2
          simp only [Except.ok.injEq] at h2
          have hphotos : res.2.photos = s.db.photos ++
              (buildUploads eventID uploaderName ids 0 files).2 := by
            rw [← h2]
          rw [hphotos]
          apply photoSizes_append
          intro p hp
          obtain ⟨j, hj, hpj⟩ := buildUploads_ids eventID uploaderName ids files 0 p hp
          have hall := h
          simp only [opTouchesSize, List.any_eq_false, List.mem_range] at hall
          have hne : (ids j == pid) = false :=
            Bool.eq_false_iff.mpr (hall j hj)
          rw [hpj]
          simpa using hne
  | confirmBulkUpload failsOn confirmations =>
    simp only [applyOp]
    cases h2 : ConfirmBulkUpload s.db failsOn confirmations with
    | error e => rfl
    | ok db2 =>
      unfold ConfirmBulkUpload at h2
      cases hemp : confirmations.isEmpty with
      | true =>
        rw [hemp] at h2
        simp only [if_true, Except.ok.injEq] at h2
        rw [← h2]
      | false =>
        rw [hemp] at h2
        simp only [Bool.false_eq_true, if_false] at h2
        cases hparse : confirmations.all (fun c => isUUIDString c.fst) with
        | false => rw [hparse] at h2; simp at h2
        | true =>
          rw [hparse] at h2
          simp only [if_true] at h2
          cases happ : applyConfirmations s.db.photos failsOn confirmations with
          | error e => rw [happ] at h2; cases h2
          | ok photos2 =>
            rw [happ] at h2
            simp only [Except.ok.injEq] at h2
            have hphotos : db2.photos = photos2 := by rw [← h2]
            rw [hphotos]
            exact applyConfirmations_photoSizes failsOn pid confirmations s.db.photos
              photos2 (by simpa [opTouchesSize] using h) happ
  | deleteBulkPhotos photoIDs eventID =>
    simp only [applyOp]
    cases h2 : DeleteBulkPhotos s.db photoIDs eventID with
    | error e => rfl
    | ok res =>
      obtain ⟨db2, urls⟩ := res
      unfold DeleteBulkPhotos at h2
      by_cases hemp : photoIDs.isEmpty = true
      · rw [if_pos hemp] at h2
        obtain ⟨h5, _⟩ := Prod.mk.inj (Except.ok.inj h2)
        rw [← h5]
      · rw [if_neg hemp] at h2
        by_cases hcount : (!((s.db.photos.filter fun p =>
            !p.deleted && photoIDs.contains p.id && p.eventID == eventID).length ==
            photoIDs.length)) = true
        · rw [if_pos hcount] at h2; cases h2
        · rw [if_neg hcount] at h2
          obtain ⟨h5, _⟩ := Prod.mk.inj (Except.ok.inj h2)
          rw [← h5]
          apply photoSizes_map
          · intro p
            by_cases hc : (!p.deleted && photoIDs.contains p.id) = true
            · rw [if_pos hc]
            · rw [if_neg hc]
          · intro p _
            by_cases hc : (!p.deleted && photoIDs.contains p.id) = true
            · rw [if_pos hc]
            · rw [if_neg hc]
  | generateBulkDownloadURL publicDomain now eventID archiveID =>
    simp only [applyOp]
    cases h2 : GenerateBulkDownloadURL s.db publicDomain now eventID archiveID with
    | error e => rfl
    | ok info => rfl

/-- The placeholder row inserted by the single-upload path. -/
def placeholderPhoto (eid pid up ct : String) : Photo :=
  { id := pid, eventID := eid, uploaderName := up,
    objectKey := photoObjectKey eid pid (getExtensionFromContentType ct),
    size := 0, mimeType := ct }

/-- A sample closed event (also used by the C5 witness). -/
def eventC5 : Event :=
  { id := "e1", name := "N", code := "ZZ99YY88", status := .closed, ownerEmail := "o@x" }

/-- A database holding just `eventC5`. -/
def dbC5 : DB := { events := [eventC5], sessions := [], photos := [] }

/-- The presigned PUT of the C3 counterexample call. -/
def presignBW : Presign :=
  { method := .put, key := "events/e1/photos/q0.png", contentType := some "image/png",
    expirySecs := 900 }

/-- The upload info of the C3 counterexample call. -/
def uploadInfoBW : UploadInfo :=
  { uploadURL := presignBW, objectKey := "events/e1/photos/q0.png", photoID := "q0" }

/-- The bulk result of the C3 counterexample call. -/
def bulkResW : BulkUploadResult := { uploads := [uploadInfoBW], batchID := "b1" }

/-- The photo row inserted by the C3 counterexample call: size 5. -/
def photoBW : Photo :=
  { id := "q0", eventID := "e1", uploaderName := "Alice",
    objectKey := "events/e1/photos/q0.png", size := 5, mimeType := "image/png" }

/-- The database after the C3 counterexample call. -/
def dbBulkW : DB := { events := [eventC5], sessions := [], photos := [photoBW] }

/-- Counterexample to C3 as stated: a `GenerateBulkUploadURLs` call with a
caller-supplied file size of 5 creates a photo row whose stored size is 5,
with no confirm step having completed for it. -/
theorem bulk_upload_size_counterexample :
    GenerateBulkUploadURLs dbC5 "e1" "Alice" "b1" (fun _ => "q0")
        [{ contentType := "image/png", size := 5 }] = .ok (bulkResW, dbBulkW) ∧
      dbBulkW.photos.map (fun p => p.size) = [5] ∧ (5 : Int) ≠ 0 :=
  ⟨by decide, by decide, by decide⟩

/-- Claim C3 (amended): rows created by the single `GenerateUploadURL` path
are inserted with byte size 0, and stay at their recorded size under every
operation that neither confirms nor inserts that photo id (only
`ConfirmUpload` / `ConfirmBulkUpload` write sizes); rows created by
`GenerateBulkUploadURLs` are instead inserted with the caller-supplied
per-file sizes, which need not be 0 before any confirm step. -/
theorem photo_size_lifecycle :
    (∀ db eid up ct pid info db', GenerateUploadURL db eid up ct pid = .ok (info, db') →
      db'.photos = db.photos ++ [placeholderPhoto eid pid up ct]) ∧
    (∀ db eid up bid ids files res db',
      GenerateBulkUploadURLs db eid up bid ids files = .ok (res, db') →
      (db'.photos.drop db.photos.length).map (fun p => p.size) =
        files.map fun f => f.size) ∧
    (∀ s op pid, opTouchesSize op pid = false →
      photoSizes (applyOp s op).db pid = photoSizes s.db pid) := by
  refine ⟨?_, ?_, applyOp_preserves_photoSizes⟩
  · intro db eid up ct pid info db' h
    unfold GenerateUploadURL at h
    cases hf : findEvent? db eid with
    | none => rw [hf] at h; cases h
    | some e =>
      rw [hf] at h
      simp only [Except.ok.injEq, Prod.mk.injEq] at h
      rw [← h.2]
      rfl
  · intro db eid up bid ids files res db' h
    unfold GenerateBulkUploadURLs at h
    cases hf : findEvent? db eid with
    | none => rw [hf] at h; cases h
    | some e =>
      rw [hf] at h
      by_cases hlen : files.length > 50
      · rw [if_pos hlen] at h; cases h
      · rw [if_neg hlen] at h
        simp only [Except.ok.injEq, Prod.mk.injEq] at h
        have hphotos : db'.photos =
            db.photos ++ (buildUploads eid up ids 0 files).2 := by
          rw [← h.2]
        rw [hphotos, List.drop_left, buildUploads_sizes]

/-- The server state holding only `photoW`, for the C3 witness. -/
def stPhotoW : ServerState := { db := dbPhotoW, presignLog := [] }

/-- Witness for C3 (amended): confirming some other photo id leaves the
sizes recorded for `p1` unchanged. -/
theorem photo_size_lifecycle_witness :
    opTouchesSize (Op.confirmUpload "p9" 7) "p1" = false ∧
      photoSizes (applyOp stPhotoW (Op.confirmUpload "p9" 7)).db "p1" =
        photoSizes stPhotoW.db "p1" :=
  ⟨by decide, photo_size_lifecycle.2.2 stPhotoW (Op.confirmUpload "p9" 7) "p1" (by decide)⟩

/-- Witness for C5: a concrete closed event is invisible by code but
returned by id. -/
theorem closed_event_hidden_by_code_visible_by_id_witness :
    GetEventByCode dbC5 eventC5.code = .error "event not found or closed" ∧
      GetEventByID dbC5 eventC5.id = .ok eventC5 :=
  closed_event_hidden_by_code_visible_by_id dbC5 eventC5
    (by simp [dbC5]) rfl rfl (by decide) (by decide)

/-! ### Bulk deletion (C8) -/

/-- Primary-key uniqueness of live photo rows, as the id list of the
non-deleted photos having no duplicates. -/
def photoIDNodup (db : DB) : Prop :=
  ((db.photos.filter fun p => !p.deleted).map fun p => p.id).Nodup

instance (db : DB) : Decidable (photoIDNodup db) := by
  unfold photoIDNodup; infer_instance

/-- Claim C8: `DeleteBulkPhotos` rejects with no effect whenever some
requested photo id has no live row in the given event (missing or owned by
another event), because the count of matching rows cannot reach the
request length under primary-key uniqueness. -/
theorem deleteBulkPhotos_rejects_atomically (db : DB) (photoIDs : List String)
    (eventID bad : String) (hnodup : photoIDNodup db) (hbad : bad ∈ photoIDs)
    (hmiss : ∀ p ∈ db.photos, p.deleted = false → p.id = bad → p.eventID ≠ eventID) :
    DeleteBulkPhotos db photoIDs eventID =
      .error "some photos not found or don't belong to this event" ∧
    (∀ lg, applyOp ⟨db, lg⟩ (.deleteBulkPhotos photoIDs eventID) = ⟨db, lg⟩) := by
  have hne : photoIDs.isEmpty = false := by
    cases photoIDs with
    | nil => cases hbad
    | cons x xs => rfl
  have hmatched : (db.photos.filter fun p =>
      !p.deleted && photoIDs.contains p.id && p.eventID == eventID).length <
      photoIDs.length := by
    set matched := db.photos.filter fun p =>
      !p.deleted && photoIDs.contains p.id && p.eventID == eventID with hm
    have hsub : List.Sublist matched (db.photos.filter fun p => !p.deleted) := by
      rw [hm]
      have h1 : (db.photos.filter fun p =>
          !p.deleted && photoIDs.contains p.id && p.eventID == eventID) =
          ((db.photos.filter fun p => !p.deleted).filter fun p =>
            photoIDs.contains p.id && p.eventID == eventID) := by
        rw [List.filter_filter]
        apply List.filter_congr
        intro p _
        cases p.deleted <;> cases photoIDs.contains p.id <;> cases p.eventID == eventID <;>
          rfl
      rw [h1]
      exact List.filter_sublist _
    have hnodup2 : (List.map (fun p => p.id)
        (List.filter (fun p => !p.deleted) db.photos)).Nodup := hnodup
    have hnm : (matched.map fun p => p.id).Nodup :=
      (hsub.map fun p => p.id).nodup hnodup2
    have hids : ∀ x ∈ matched.map fun p => p.id, x ∈ photoIDs ∧ x ≠ bad := by
      intro x hx
      rcases List.mem_map.mp hx with ⟨p, hp, hpx⟩
      rw [hm] at hp
      have hpred := List.of_mem_filter hp
      have hpmem := List.mem_of_mem_filter hp
      simp only [Bool.and_eq_true, Bool.not_eq_true', beq_iff_eq] at hpred
      obtain ⟨⟨hdel, hcont⟩, hev⟩ := hpred
      constructor
      · rw [← hpx]; simpa using hcont
      · intro hxb
        exact hmiss p hpmem hdel (hpx.trans hxb) hev
    have hfs : (matched.map fun p => p.id).toFinset ⊆ photoIDs.toFinset.erase bad := by
      intro x hx
      rw [List.mem_toFinset] at hx
      obtain ⟨h1, h2⟩ := hids x hx
      exact Finset.mem_erase.mpr ⟨h2, List.mem_toFinset.mpr h1⟩
    have hlen : matched.length = (matched.map fun p => p.id).length :=
      (List.length_map _ _).symm
    calc matched.length
        = (matched.map fun p => p.id).toFinset.card := by
          rw [List.toFinset_card_of_nodup hnm, ← hlen]
      _ ≤ (photoIDs.toFinset.erase bad).card := Finset.card_le_card hfs
      _ < photoIDs.toFinset.card := by
          apply Finset.card_erase_lt_of_mem
          exact List.mem_toFinset.mpr hbad
      _ ≤ photoIDs.length := List.toFinset_card_le photoIDs
  have hresult : DeleteBulkPhotos db photoIDs eventID =
      .error "some photos not found or don't belong to this event" := by
    unfold DeleteBulkPhotos
    rw [if_neg (by simp [hne])]
    rw [if_pos]
    simp only [Bool.not_eq_true', beq_eq_false_iff_ne]
    omega
  refine ⟨hresult, ?_⟩
  intro lg
  simp only [applyOp, hresult]

/-- Witness for C8: requesting the live photo `p1` together with the
missing id `p2` is rejected and the state is untouched. -/
theorem deleteBulkPhotos_rejects_atomically_witness :
    photoIDNodup dbPhotoW ∧ "p2" ∈ ["p1", "p2"] ∧
      DeleteBulkPhotos dbPhotoW ["p1", "p2"] "e1" =
        .error "some photos not found or don't belong to this event" ∧
      applyOp ⟨dbPhotoW, []⟩ (.deleteBulkPhotos ["p1", "p2"] "e1") = ⟨dbPhotoW, []⟩ :=
  ⟨by decide, by decide,
    (deleteBulkPhotos_rejects_atomically dbPhotoW ["p1", "p2"] "e1" "p2"
      (by decide) (by decide) (by decide)).1,
    (deleteBulkPhotos_rejects_atomically dbPhotoW ["p1", "p2"] "e1" "p2"
      (by decide) (by decide) (by decide)).2 []⟩

/-! ### Bulk size confirmation (C9) -/

/-- The per-photo effect of a committed `ConfirmBulkUpload` call: a live
row whose id is a confirmation key takes that key's size. -/
def confirmSize (confirmations : List (String × Int)) (p : Photo) : Photo :=
  match confirmations.find? (fun c => c.fst == p.id) with
  | some c => if p.deleted then p else { p with size := c.snd }
  | none => p

/-- A fresh key never rewrites a photo. -/
theorem confirmSize_of_not_mem (confirmations : List (String × Int)) (p : Photo)
    (h : ∀ c ∈ confirmations, (c.fst == p.id) = false) : confirmSize confirmations p = p := by
  unfold confirmSize
  have : confirmations.find? (fun c => c.fst == p.id) = none :=
    List.find?_eq_none.mpr fun c hc => by simp [h c hc]
  rw [this]

/-- With pairwise-distinct keys and no failing update, the transaction
body rewrites the photo table pointwise by `confirmSize`. -/
theorem applyConfirmations_ok (failsOn : String → Bool) :
    ∀ (confirmations : List (String × Int)) (photos : List Photo),
      (confirmations.map fun c => c.fst).Nodup →
      (∀ c ∈ confirmations, failsOn c.fst = false) →
      applyConfirmations photos failsOn confirmations =
        .ok (photos.map (confirmSize confirmations)) := by
  intro confirmations
  induction confirmations with
  | nil =>
    intro photos _ _
    unfold applyConfirmations
    rw [map_eq_self_of_fixed fun p _ => confirmSize_of_not_mem [] p fun c hc => by cases hc]
  | cons c rest ih =>
    intro photos hnodup hok
    obtain ⟨k, v⟩ := c
    have hkfail : failsOn k = false := hok (k, v) (by simp)
    have hknotin : ∀ c2 ∈ rest, (c2.fst == k) = false := by
      intro c2 hc2
      simp only [List.map_cons, List.nodup_cons] at hnodup
      apply Bool.eq_false_iff.mpr
      intro hcontra
      exact hnodup.1 (List.mem_map.mpr ⟨c2, hc2, by simpa using hcontra⟩)
    unfold applyConfirmations
    rw [hkfail]
    simp only [Bool.false_eq_true, if_false]
    rw [ih _ (by simpa using hnodup.of_cons) fun c2 hc2 => hok c2 (List.mem_cons_of_mem _ hc2)]
    rw [List.map_map]
    congr 1
    apply List.map_congr_left
    intro p _
    simp only [Function.comp_apply]
    by_cases hid : (p.id == k) = true
    · have hpk : p.id = k := by simpa using hid
      have hfind : List.find? (fun c2 => c2.fst == p.id) ((k, v) :: rest) = some (k, v) := by
        simp [List.find?_cons, hpk]
      by_cases hdel : p.deleted = true
      · have hcond : ¬((!p.deleted && p.id == k) = true) := by simp [hdel]
        rw [if_neg hcond]
        rw [confirmSize_of_not_mem rest p fun c2 hc2 => by
          simpa [hpk] using hknotin c2 hc2]
        unfold confirmSize
        rw [hfind]
        simp [hdel]
      · have hdelf : p.deleted = false := Bool.eq_false_iff.mpr hdel
        have hcond : (!p.deleted && p.id == k) = true := by rw [hdelf, hid]; rfl
        rw [if_pos hcond]
        rw [confirmSize_of_not_mem rest { p with size := v } fun c2 hc2 => by
          simpa [hpk] using hknotin c2 hc2]
        unfold confirmSize
        rw [hfind]
        simp [hdelf]
    · have hid2 : (p.id == k) = false := Bool.eq_false_iff.mpr hid
      have hcond : (!p.deleted && p.id == k) = false := by
        rw [hid2]
        cases p.deleted <;> rfl
      rw [if_neg (by simp [hcond])]
      unfold confirmSize
      have hhead : ((k, v).fst == p.id) = false := by
        apply Bool.eq_false_iff.mpr
        intro hcontra
        have hkp : k = p.id := by simpa using hcontra
        apply Bool.eq_false_iff.mp hid2
        simp [hkp]
      have hstep : List.find? (fun c2 => c2.fst == p.id) ((k, v) :: rest) =
          List.find? (fun c2 => c2.fst == p.id) rest := by
        rw [List.find?_cons, hhead]
      rw [hstep]

/-- If some update of the call fails, the transaction body reports an
error. -/
theorem applyConfirmations_fails (failsOn : String → Bool) :
    ∀ (confirmations : List (String × Int)) (photos : List Photo),
      (∃ c ∈ confirmations, failsOn c.fst = true) →
      ∀ res, applyConfirmations photos failsOn confirmations ≠ .ok res := by
  intro confirmations
  induction confirmations with
  | nil =>
    intro photos hex res
    obtain ⟨c, hc, _⟩ := hex
    cases hc
  | cons c rest ih =>
    intro photos hex res
    obtain ⟨k, v⟩ := c
    unfold applyConfirmations
    cases hfail : failsOn k with
    | true => simp
    | false =>
      simp only [Bool.false_eq_true, if_false]
      apply ih
      obtain ⟨c2, hc2, hfail2⟩ := hex
      rcases List.mem_cons.mp hc2 with h | h
      · exfalso
        rw [h] at hfail2
        rw [hfail2] at hfail
        cases hfail
      · exact ⟨c2, h, hfail2⟩

/-- Claim C9: `ConfirmBulkUpload` applies all size updates of one call
inside a single transaction: with distinct, well-formed photo ids, either
no update fails and every update of the call is committed pointwise, or
some update fails and the call reports an error with no photo's size (or
any other row) changed. -/
theorem confirmBulkUpload_transactional (db : DB) (failsOn : String → Bool)
    (confirmations : List (String × Int))
    (hkeys : (confirmations.map fun c => c.fst).Nodup)
    (hparse : ∀ c ∈ confirmations, isUUIDString c.fst = true) :
    ((∀ c ∈ confirmations, failsOn c.fst = false) →
      ConfirmBulkUpload db failsOn confirmations =
        .ok { db with photos := db.photos.map (confirmSize confirmations) }) ∧
    ((∃ c ∈ confirmations, failsOn c.fst = true) →
      (∀ db2, ConfirmBulkUpload db failsOn confirmations ≠ .ok db2) ∧
      ∀ lg, applyOp ⟨db, lg⟩ (.confirmBulkUpload failsOn confirmations) = ⟨db, lg⟩) := by
  constructor
  · intro hok
    unfold ConfirmBulkUpload
    cases hemp : confirmations.isEmpty with
    | true =>
      simp only [if_true]
      have hnil : confirmations = [] := List.isEmpty_iff.mp hemp
      subst hnil
      rw [map_eq_self_of_fixed fun p _ => confirmSize_of_not_mem [] p fun c hc => by cases hc]
    | false =>
      simp only [Bool.false_eq_true, if_false]
      rw [if_pos (List.all_eq_true.mpr fun c hc => hparse c hc)]
      rw [applyConfirmations_ok failsOn confirmations db.photos hkeys hok]
  · intro hex
    have hne : ConfirmBulkUpload db failsOn confirmations =
        .ok db → False := by
      intro hcontra
      unfold ConfirmBulkUpload at hcontra
      exact absurd hcontra (by
        cases hemp : confirmations.isEmpty with
        | true =>
          obtain ⟨c, hc, _⟩ := hex
          rw [List.isEmpty_iff.mp hemp] at hc
          cases hc
        | false =>
          simp only [Bool.false_eq_true, if_false]
          rw [if_pos (List.all_eq_true.mpr fun c hc => hparse c hc)]
          cases happ : applyConfirmations db.photos failsOn confirmations with
          | error e => simp
          | ok photos2 => exact absurd happ (applyConfirmations_fails failsOn confirmations db.photos hex photos2))
    have hbody : ∀ db2, ConfirmBulkUpload db failsOn confirmations ≠ .ok db2 := by
      intro db2 hcontra
      unfold ConfirmBulkUpload at hcontra
      cases hemp : confirmations.isEmpty with
      | true =>
        obtain ⟨c, hc, _⟩ := hex
        rw [List.isEmpty_iff.mp hemp] at hc
        cases hc
      | false =>
        rw [hemp] at hcontra
        simp only [Bool.false_eq_true, if_false] at hcontra
        rw [if_pos (List.all_eq_true.mpr fun c hc => hparse c hc)] at hcontra
        cases happ : applyConfirmations db.photos failsOn confirmations with
        | error e => rw [happ] at hcontra; cases hcontra
        | ok photos2 =>
          exact applyConfirmations_fails failsOn confirmations db.photos hex photos2 happ
    refine ⟨hbody, ?_⟩
    intro lg
    simp only [applyOp]
    cases hres : ConfirmBulkUpload db failsOn confirmations with
    | error e => rfl
    | ok db2 => exact absurd hres (hbody db2)

/-- A canonical UUID string for the C9 witness. -/
def uuidW : String := "aaaaaaaa-bbbb-cccc-dddd-eeeeeeeeeeee"

/-- The single-entry confirmation map of the C9 witness. -/
def confsW : List (String × Int) := [(uuidW, 7)]

/-- A database-failure oracle that fails every update. -/
def failsAll : String → Bool := fun _ => true

/-- Witness for C9: when the single update of a call fails, the call
reports an error and the state is left untouched. -/
theorem confirmBulkUpload_transactional_witness :
    (confsW.map fun c => c.fst).Nodup ∧
      (∀ c ∈ confsW, isUUIDString c.fst = true) ∧
      (∀ db2, ConfirmBulkUpload dbPhotoW failsAll confsW ≠ .ok db2) ∧
      ∀ lg, applyOp ⟨dbPhotoW, lg⟩ (.confirmBulkUpload failsAll confsW) = ⟨dbPhotoW, lg⟩ :=
  ⟨by decide, by decide,
    ((confirmBulkUpload_transactional dbPhotoW failsAll confsW (by decide) (by decide)).2
      ⟨(uuidW, 7), by simp [confsW], rfl⟩).1,
    ((confirmBulkUpload_transactional dbPhotoW failsAll confsW (by decide) (by decide)).2
      ⟨(uuidW, 7), by simp [confsW], rfl⟩).2⟩

/-! ### Bulk download and the dead archive key (C4) -/

/-- The extensions the upload paths can produce. -/
def validExtensions : List String := [".jpg", ".png", ".gif", ".webp", ".heic", ".heif"]

/-- The extension table is exhaustive: every derived extension is one of
the six image extensions. -/
theorem getExtension_mem (ct : String) : getExtensionFromContentType ct ∈ validExtensions := by
  unfold getExtensionFromContentType
  repeat' split
  all_goals decide

/-- No string ending in an image extension ends in `.zip`. -/
theorem append_ext_ne_zip (ext : String) (hext : ext ∈ validExtensions) (a b : String) :
    a ++ ext ≠ b ++ ".zip" := by
  intro hcontra
  have hdata : a.data ++ ext.data = b.data ++ ".zip".data := congrArg String.data hcontra
  have h4 : ∀ x : String, x.data.length = 4 → x.data ≠ ".zip".data →
      ∀ c d : List Char, c ++ x.data = d ++ ".zip".data → False := by
    intro x hxlen hxne c d hcd
    exact hxne (List.append_inj' hcd (by rw [hxlen]; rfl)).2
  simp only [validExtensions, List.mem_cons, List.not_mem_nil, or_false] at hext
  rcases hext with h | h | h | h | h | h
  · subst h; exact h4 ".jpg" rfl (by decide) a.data b.data hdata
  · subst h; exact h4 ".png" rfl (by decide) a.data b.data hdata
  · subst h; exact h4 ".gif" rfl (by decide) a.data b.data hdata
  · subst h
    rw [show (".webp".data : List Char) = ['.'] ++ "webp".data from rfl,
      ← List.append_assoc] at hdata
    exact absurd (List.append_inj' hdata rfl).2 (by decide)
  · subst h
    rw [show (".heic".data : List Char) = ['.'] ++ "heic".data from rfl,
      ← List.append_assoc] at hdata
    exact absurd (List.append_inj' hdata rfl).2 (by decide)
  · subst h
    rw [show (".heif".data : List Char) = ['.'] ++ "heif".data from rfl,
      ← List.append_assoc] at hdata
    exact absurd (List.append_inj' hdata rfl).2 (by decide)

/-- Every PUT presign in the log is for a key ending in an image
extension. -/
def putKeysShaped (lg : List Presign) : Prop :=
  ∀ p ∈ lg, p.method = .put → ∃ a ext, ext ∈ validExtensions ∧ p.key = a ++ ext

/-- The PUT URLs minted by the bulk-upload loop are for photo-shaped
keys. -/
theorem buildUploads_urls (eventID uploaderName : String) (ids : Nat → String) :
    ∀ (files : List FileSpec) (i : Nat) (u : UploadInfo),
      u ∈ (buildUploads eventID uploaderName ids i files).1 →
      u.uploadURL.method = .put ∧
      ∃ a ext, ext ∈ validExtensions ∧ u.uploadURL.key = a ++ ext := by
  intro files
  induction files with
  | nil => intro i u hu; cases hu
  | cons f rest ih =>
    intro i u hu
    unfold buildUploads at hu
    simp only [List.mem_cons] at hu
    rcases hu with hu | hu
    · subst hu
      refine ⟨rfl, "events/" ++ eventID ++ "/photos/" ++ ids i,
        getExtensionFromContentType f.contentType, getExtension_mem _, rfl⟩
    · exact ih (i + 1) u hu

/-- Every operation preserves the PUT-key shape invariant of the presign
log: the only PUT URLs the system ever mints are for photo object keys. -/
theorem applyOp_putKeys (s : ServerState) (op : Op) (h : putKeysShaped s.presignLog) :
    putKeysShaped (applyOp s op).presignLog := by
  cases op with
  | createEvent rng newID now req =>
    simp only [applyOp]
    cases CreateEvent s.db rng newID now req with
    | error e => exact h
    | ok res => exact h
  | updateEvent eventID req =>
    simp only [applyOp]
    cases UpdateEvent s.db eventID req with
    | error e => exact h
    | ok res => exact h
  | deleteEvent eventID => exact h
  | closeEvent eventID => exact h
  | createSession now newID token eventID guestName =>
    simp only [applyOp]
    cases CreateSession s.db now newID token eventID guestName with
    | error e => exact h
    | ok res => exact h
  | refreshSession now token =>
    simp only [applyOp]
    cases RefreshSession s.db now token with
    | error e => exact h
    | ok res => exact h
  | revokeSession token =>
    simp only [applyOp]
    cases RevokeSession s.db token with
    | error e => exact h
    | ok db2 => exact h
  | cleanupSessions now => exact h
  | generateUploadURL eventID uploaderName contentType photoID =>
    simp only [applyOp]
    cases h2 : GenerateUploadURL s.db eventID uploaderName contentType photoID with
    | error e => exact h
    | ok res =>
      intro p hp hput
      simp only [List.mem_append, List.mem_singleton] at hp
      rcases hp with hp | hp
      · exact h p hp hput
      · subst hp
        unfold GenerateUploadURL at h2
        cases hf : findEvent? s.db eventID with
        | none => rw [hf] at h2; cases h2
        | some e =>
          rw [hf] at h2
          simp only [Except.ok.injEq] at h2
          obtain ⟨h5, _⟩ := Prod.mk.inj h2
          rw [← h5]
          exact ⟨"events/" ++ eventID ++ "/photos/" ++ photoID,
            getExtensionFromContentType contentType, getExtension_mem _, rfl⟩
  | confirmUpload photoID size =>
    simp only [applyOp, ConfirmUpload]
    exact h
  | deletePhoto photoID userCanDelete =>
    simp only [applyOp]
    cases h2 : DeletePhoto s.db photoID userCanDelete with
    | error e => exact h
    | ok res =>
      intro p hp hput
      simp only [List.mem_append, List.mem_singleton] at hp
      rcases hp with hp | hp
      · exact h p hp hput
      · subst hp
        unfold DeletePhoto at h2
        cases hf : s.db.photos.find? (fun q => !q.deleted && q.id == photoID) with
        | none => rw [hf] at h2; cases h2
        | some photo =>
          rw [hf] at h2
          by_cases hauth : userCanDelete = true
          · simp only [hauth, Bool.not_true, Bool.false_eq_true, if_false,
              Except.ok.injEq] at h2
            obtain ⟨_, h6⟩ := Prod.mk.inj h2
            rw [← h6] at hput
            cases hput
          · have hf2 : userCanDelete = false := Bool.eq_false_iff.mpr hauth
            simp [hf2] at h2
  | generateBulkUploadURLs eventID uploaderName batchID ids files =>
    simp only [applyOp]
    cases h2 : GenerateBulkUploadURLs s.db eventID uploaderName batchID ids files with
    | error e => exact h
    | ok res =>
      intro p hp hput
      simp only [List.mem_append] at hp
      rcases hp with hp | hp
      · exact h p hp hput
      · rcases List.mem_map.mp hp with ⟨u, hu, hup⟩
        unfold GenerateBulkUploadURLs at h2
        cases hf : findEvent? s.db eventID with
        | none => rw [hf] at h2; cases h2
        | some e =>
          rw [hf] at h2
          by_cases hlen : files.length > 50
          · rw [if_pos hlen] at h2; cases h2
          · rw [if_neg hlen] at h2
            simp only [Except.ok.injEq] at h2
            obtain ⟨h5, _⟩ := Prod.mk.inj h2
            have hu2 : u ∈ (buildUploads eventID uploaderName ids 0 files).1 := by
              have : res.1.uploads = (buildUploads eventID uploaderName ids 0 files).1 := by
                rw [← h5]
              rw [← this]
              exact hu
            obtain ⟨_, a, ext, hm, hk⟩ := buildUploads_urls eventID uploaderName ids files 0 u hu2
            exact ⟨a, ext, hm, by rw [← hup, hk]⟩
  | confirmBulkUpload failsOn confirmations =>
    simp only [applyOp]
    cases ConfirmBulkUpload s.db failsOn confirmations with
    | error e => exact h
    | ok db2 => exact h
  | deleteBulkPhotos photoIDs eventID =>
    simp only [applyOp]
    cases h2 : DeleteBulkPhotos s.db photoIDs eventID with
    | error e => exact h
    | ok res =>
      intro p hp hput
      simp only [List.mem_append] at hp
      rcases hp with hp | hp
      · exact h p hp hput
      · exfalso
        unfold DeleteBulkPhotos at h2
        by_cases hemp : photoIDs.isEmpty = true
        · rw [if_pos hemp] at h2
          obtain ⟨_, h6⟩ := Prod.mk.inj (Except.ok.inj h2)
          rw [← h6] at hp
          cases hp
        · rw [if_neg hemp] at h2
          by_cases hcount : (!((s.db.photos.filter fun q =>
              !q.deleted && photoIDs.contains q.id && q.eventID == eventID).length ==
              photoIDs.length)) = true
          · rw [if_pos hcount] at h2; cases h2
          · rw [if_neg hcount] at h2
            obtain ⟨_, h6⟩ := Prod.mk.inj (Except.ok.inj h2)
            rw [← h6] at hp
            rcases List.mem_map.mp hp with ⟨k, _, hk⟩
            rw [← hk] at hput
            cases hput
  | generateBulkDownloadURL publicDomain now eventID archiveID =>
    simp only [applyOp]
    cases h2 : GenerateBulkDownloadURL s.db publicDomain now eventID archiveID with
    | error e => exact h
    | ok info =>
      intro p hp hput
      simp only [List.mem_append, List.mem_singleton] at hp
      rcases hp with hp | hp
      · exact h p hp hput
      · exfalso
        subst hp
        unfold GenerateBulkDownloadURL at h2
        by_cases hz : ((GetPhotosByEvent s.db publicDomain eventID).length == 0) = true
        · rw [if_pos hz] at h2; cases h2
        · rw [if_neg hz] at h2
          have h6 := Except.ok.inj h2
          rw [← h6] at hput
          cases hput

/-- Running any sequence of operations preserves the PUT-key shape. -/
theorem applyOps_putKeys (ops : List Op) (s0 : ServerState)
    (h : putKeysShaped s0.presignLog) : putKeysShaped (applyOps s0 ops).presignLog := by
  induction ops generalizing s0 with
  | nil => exact h
  | cons op rest ih => exact ih (applyOp s0 op) (applyOp_putKeys s0 op h)

/-- The presigned 1-hour GET for an archive key. -/
def archiveGetPresign (eid aid : String) : Presign :=
  { method := .get, key := archiveObjectKey eid aid, contentType := none, expirySecs := 3600 }

/-- The `DownloadInfo` a successful bulk-download call returns. -/
def archiveDownloadInfo (eid aid : String) (now count : Nat) : DownloadInfo :=
  { downloadURL := archiveGetPresign eid aid, expiresAt := now + 3600, photoCount := count }

/-- Claim C4: `GenerateBulkDownloadURL(eventID)` fails exactly when the
event has zero photos; otherwise it returns a presigned 1-hour GET URL for
the archive key `events/{eventID}/archives/{archiveID}.zip` — a key that no
operation of the system ever creates an object under: the only
object-store writes the backend enables are its presigned PUT URLs, and
every PUT URL ever minted is for a photo key ending in an image extension,
never a `.zip` archive key. -/
theorem generateBulkDownloadURL_spec (db : DB) (publicDomain : String) (now : Nat)
    (eid aid : String) :
    (GenerateBulkDownloadURL db publicDomain now eid aid =
        .error "no photos found for event" ↔ visiblePhotos db eid = []) ∧
    (visiblePhotos db eid ≠ [] →
      GenerateBulkDownloadURL db publicDomain now eid aid =
        .ok (archiveDownloadInfo eid aid now (visiblePhotos db eid).length)) ∧
    (∀ s0 ops, s0.presignLog = [] →
      ∀ p ∈ (applyOps s0 ops).presignLog, p.method = .put →
        p.key ≠ archiveObjectKey eid aid) := by
  have hlen : (GetPhotosByEvent db publicDomain eid).length =
      (visiblePhotos db eid).length := by
    unfold GetPhotosByEvent
    rw [List.length_map]
  refine ⟨?_, ?_, ?_⟩
  · unfold GenerateBulkDownloadURL
    by_cases hempty : visiblePhotos db eid = []
    · rw [if_pos (by simp [hlen, hempty])]
      simp [hempty]
    · rw [if_neg (by
        simp only [beq_iff_eq, hlen]
        intro hcontra
        exact hempty (List.length_eq_zero.mp hcontra))]
      constructor
      · intro hcontra; cases hcontra
      · intro hcontra; exact absurd hcontra hempty
  · intro hne
    unfold GenerateBulkDownloadURL
    rw [if_neg (by
      simp only [beq_iff_eq, hlen]
      intro hcontra
      exact hne (List.length_eq_zero.mp hcontra))]
    rw [hlen]
    rfl
  · intro s0 ops hlog p hp hput hkey
    have hinit : putKeysShaped s0.presignLog := by
      rw [hlog]
      intro q hq
      cases hq
    obtain ⟨a, ext, hm, hk⟩ := applyOps_putKeys ops s0 hinit p hp hput
    exact append_ext_ne_zip ext hm a ("events/" ++ eid ++ "/archives/" ++ aid)
      (hk.symm.trans hkey)

/-- The presigned GET of the C4 witness call. -/
def dlPresignW : Presign :=
  { method := .get, key := "events/e1/archives/a1.zip", contentType := none,
    expirySecs := 3600 }

/-- The download info of the C4 witness call. -/
def dlInfoW : DownloadInfo :=
  { downloadURL := dlPresignW, expiresAt := 3600, photoCount := 1 }

/-- Witness for C4: an event with one photo yields the 1-hour presigned
GET for the (never-created) archive key. -/
theorem generateBulkDownloadURL_spec_witness :
    visiblePhotos dbBulkW "e1" ≠ [] ∧
      GenerateBulkDownloadURL dbBulkW "https://cdn" 0 "e1" "a1" = .ok dlInfoW :=
  ⟨by decide, (generateBulkDownloadURL_spec dbBulkW "https://cdn" 0 "e1" "a1").2.1 (by decide)⟩

end SnapShare

